import Mathlib

/-!
Verification of the V8 value-marshalling bridge (`gumv8value.cpp`).

This file gives a shallow embedding of the marshalling layer:

* the V8 value space as seen through the predicates the code uses
  (`IsNumber`, `IsString`, `IsBigInt`, `HasInstance`, ...),
* the numeric conversions (`_gum_v8_int_get`, `_gum_v8_int64_parse`,
  `_gum_v8_native_pointer_parse`, ...), including a faithful model of
  glib's `g_ascii_strtoll` / `g_ascii_strtoull` (via `g_parse_long_long`),
* the variadic argument parser `_gum_v8_args_parse` with its transactional
  `GumV8ArgsParseScope`,
* the byte-buffer coercions, the page-protection codec, the error-message
  casing transforms, the native-resource registry and the CPU-context
  snapshot lifecycle.

Modelling conventions:

* Machine integers are `Nat`/`Int` with explicit `% 2^w` at the points the
  C code truncates or reinterprets; pointers are 64-bit (`gsize = guint64`).
* JavaScript numbers are modelled on their integral fragment (an `Int`
  payload); every concrete input used by the claims is an integer-valued
  double which the `double` type represents exactly.
* Fallible conversions return a result type carrying the exact exception
  message the C code throws; C undefined behaviour (out-of-range
  float-to-integer casts, format-string buffer overruns,
  `g_assert_not_reached`) is a distinguished `bad` outcome.
* Loops that consume a statically bounded amount of input are written with
  explicit fuel (the input length bounds the iteration count), keeping all
  definitions executable by `rfl`/`decide`.
-/

namespace GumV8

/-! ### Fixed-width integer bounds (glib) -/

def G_MAXINT : Int := 2 ^ 31 - 1
def G_MININT : Int := -(2 ^ 31)
def G_MAXUINT : Nat := 2 ^ 32 - 1
def G_MAXINT64 : Int := 2 ^ 63 - 1
def G_MININT64 : Int := -(2 ^ 63)
def G_MAXUINT64 : Nat := 2 ^ 64 - 1
def G_MAXSIZE : Nat := 2 ^ 64 - 1
def G_MAXSSIZE : Int := 2 ^ 63 - 1
def G_MINSSIZE : Int := -(2 ^ 63)

/-- Embeds `GUM_MAX_SEND_ARRAY_LENGTH` (1024 * 1024). -/
def GUM_MAX_SEND_ARRAY_LENGTH : Nat := 1024 * 1024

/-! ### The V8 value space

One constructor per kind of value the marshalling code distinguishes.
Wrapper objects (`NativePointer`, `Int64`, `UInt64`, `CpuContext`,
`MatchPattern`) are identified through `FunctionTemplate::HasInstance`
in the C code, which we model as constructor tests.  Plain objects carry
their (data) properties; accessors/proxies are outside the model, so
`Get` always succeeds. -/

inductive V8Value where
  | vUndefined
  | vNull
  | vBool (b : Bool)
  | vNumber (i : Int)
  | vString (s : String)
  | vBigInt (n : Int)
  | vArray (elems : List V8Value)
  | vArrayBuffer (data : List Nat)
  | vArrayBufferView (data : List Nat)
  | vObject (props : List (String × V8Value))
  | vFunction (id : Nat)
  | vExternal (p : Nat)
  | vNativePointerObj (addr : Nat)
  | vInt64Obj (v : Int)
  | vUInt64Obj (v : Nat)
  | vCpuContextObj (ctx : Nat)
  | vMatchPatternObj (pat : Nat)

namespace V8Value

def isUndefined : V8Value → Bool
  | vUndefined => true
  | _ => false

def isNull : V8Value → Bool
  | vNull => true
  | _ => false

def isNumber : V8Value → Bool
  | vNumber _ => true
  | _ => false

def isString : V8Value → Bool
  | vString _ => true
  | _ => false

def isBoolean : V8Value → Bool
  | vBool _ => true
  | _ => false

def isBigInt : V8Value → Bool
  | vBigInt _ => true
  | _ => false

def isArray : V8Value → Bool
  | vArray _ => true
  | _ => false

def isArrayBuffer : V8Value → Bool
  | vArrayBuffer _ => true
  | _ => false

def isArrayBufferView : V8Value → Bool
  | vArrayBufferView _ => true
  | _ => false

def isFunction : V8Value → Bool
  | vFunction _ => true
  | _ => false

def isExternal : V8Value → Bool
  | vExternal _ => true
  | _ => false

/-- Embeds `Value::IsObject`: true for heap objects (plain objects, arrays,
buffers, functions and the engine-defined wrapper instances). -/
def isObject : V8Value → Bool
  | vObject _ | vArray _ | vArrayBuffer _ | vArrayBufferView _
  | vFunction _ | vNativePointerObj _ | vInt64Obj _ | vUInt64Obj _
  | vCpuContextObj _ | vMatchPatternObj _ => true
  | _ => false

/-- Named-property lookup on a value; only plain objects carry data
properties in this model (`Object::Get` on the others yields undefined). -/
def getProp : V8Value → String → Option V8Value
  | vObject props, k => props.lookup k
  | _, _ => none

end V8Value

/-! ### Error taxonomy

The C code reports failures through `_gum_v8_throw_ascii_literal` with a
literal message; each constructor stands for one such literal. -/

inductive GumError where
  | missingArgument
  | expectedInteger
  | expectedUnsignedInteger
  | expectedNumber
  | expectedBoolean
  | expectedPointer
  | expectedExternalPointer
  | expectedString
  | expectedRangeObject
  | invalidRangeSize
  | expectedRangeOrArray
  | expectedProtectionString
  | invalidProtectionChar
  | expectedObject
  | expectedArray
  | expectedCallbacksObject
  | expectedCallbackValue
  | expectedFunction
  | unsupportedDataValue
  | expectedCpuContext
  | invalidMatchPattern
  | expectedPattern
  | invalidHexadecimalString
  | invalidDecimalString
deriving DecidableEq, Repr

/-- The exact ASCII literal the C code throws for each error. -/
def GumError.message : GumError → String
  | .missingArgument => "missing argument"
  | .expectedInteger => "expected an integer"
  | .expectedUnsignedInteger => "expected an unsigned integer"
  | .expectedNumber => "expected a number"
  | .expectedBoolean => "expected a boolean"
  | .expectedPointer => "expected a pointer"
  | .expectedExternalPointer => "expected an external pointer"
  | .expectedString => "expected a string"
  | .expectedRangeObject => "expected a range object"
  | .invalidRangeSize => "range object has an invalid or missing size property"
  | .expectedRangeOrArray => "expected a range object or an array of range objects"
  | .expectedProtectionString => "expected a string specifying memory protection"
  | .invalidProtectionChar => "invalid character in memory protection specifier string"
  | .expectedObject => "expected an object"
  | .expectedArray => "expected an array"
  | .expectedCallbacksObject => "expected an object containing callbacks"
  | .expectedCallbackValue => "expected a callback value"
  | .expectedFunction => "expected a function"
  | .unsupportedDataValue => "unsupported data value"
  | .expectedCpuContext => "expected a CpuContext object"
  | .invalidMatchPattern => "invalid match pattern"
  | .expectedPattern => "expected either a pattern string or a MatchPattern object"
  | .invalidHexadecimalString => "invalid hexadecimal string"
  | .invalidDecimalString => "invalid decimal string"

/-- Result of a fallible conversion: success, a thrown error plus `FALSE`
return, or C undefined behaviour. -/
inductive Res (α : Type) where
  | ok (a : α)
  | fail (e : GumError)
  | bad
deriving Repr, DecidableEq

/-! ### glib numeric text parsing (`g_parse_long_long`)

`g_ascii_strtoll` / `g_ascii_strtoull` are implemented in glib on top of
`g_parse_long_long`, which skips C-locale whitespace, accepts an optional
`+`/`-` sign, consumes an optional `0x`/`0X` prefix when the base is 16,
accumulates digits of the base with a sticky overflow flag (clamping the
magnitude to `G_MAXUINT64`), and reports via `endptr` how many characters
were consumed — with the quirk that when a `0x` prefix was consumed but no
digit followed, `endptr` backs up to just after the leading `0`. -/

/-- The C-locale `isspace` classifier. -/
def isAsciiSpaceC (c : Char) : Bool :=
  c = ' ' || c = '\t' || c = '\n' || c = '\x0b' || c = '\x0c' || c = '\r'

/-- Digit value as computed by `g_parse_long_long`: `0-9` directly, any
ASCII letter as `10..35`; other characters stop the scan. -/
def gDigitVal (c : Char) : Option Nat :=
  if '0' ≤ c ∧ c ≤ '9' then some (c.toNat - 48)
  else if 'a' ≤ c ∧ c ≤ 'z' then some (c.toNat - 97 + 10)
  else if 'A' ≤ c ∧ c ≤ 'Z' then some (c.toNat - 65 + 10)
  else none

/-- A character that continues the digit loop for `base`. -/
def isBaseDigit (base : Nat) (c : Char) : Bool :=
  match gDigitVal c with
  | some v => v < base
  | none => false

/-- Outcome of `g_parse_long_long`: magnitude (clamped to `G_MAXUINT64`
on overflow), sign flag, and the `endptr` offset from the start of the
input (0 exactly when no conversion was performed). -/
structure GParseOut where
  magnitude : Nat
  negative : Bool
  consumed : Nat
deriving Repr, DecidableEq

/-- Sign detection of `g_parse_long_long`: the negative flag and the
number of sign characters consumed. -/
def gllSign (s1 : List Char) : Bool × Nat :=
  match s1 with
  | '-' :: _ => (true, 1)
  | '+' :: _ => (false, 1)
  | _ => (false, 0)

/-- Length of the `0x`/`0X` prefix consumed when the base is 16. -/
def gllPrefLen (base : Nat) (s2 : List Char) : Nat :=
  match s2 with
  | '0' :: c2 :: _ => if base = 16 ∧ (c2 = 'x' ∨ c2 = 'X') then 2 else 0
  | _ => 0

def gParseLongLong (s : List Char) (base : Nat) : GParseOut :=
  let wsLen := (s.takeWhile isAsciiSpaceC).length
  let s1 := s.dropWhile isAsciiSpaceC
  match s1 with
  | [] => ⟨0, false, 0⟩
  | _ :: _ =>
    let neg := (gllSign s1).1
    let s2 := s1.drop (gllSign s1).2
    let prefLen := gllPrefLen base s2
    let s3 := s2.drop prefLen
    let digits := s3.takeWhile (isBaseDigit base)
    if digits.isEmpty then
      -- `noconv`: if a `0x` prefix was consumed, endptr backs up to after
      -- the leading `0`; otherwise it is reset to the start of the input.
      if prefLen = 2 then ⟨0, neg, wsLen + (gllSign s1).2 + 1⟩ else ⟨0, false, 0⟩
    else
      let acc := digits.foldl (fun a c => a * base + (gDigitVal c).getD 0) 0
      ⟨min acc G_MAXUINT64, neg, wsLen + (gllSign s1).2 + prefLen + digits.length⟩

/-- Embeds `g_ascii_strtoull`: value (a negative subject sequence is negated in
the unsigned return type, i.e. modulo `2^64`) and the `endptr` offset. -/
def gAsciiStrtoull (s : List Char) (base : Nat) : Nat × Nat :=
  let r := gParseLongLong s base
  (if r.negative then (2 ^ 64 - r.magnitude) % 2 ^ 64 else r.magnitude, r.consumed)

/-- Embeds `g_ascii_strtoll`: clamps to `G_MININT64`/`G_MAXINT64` on overflow
(the boundary magnitude `2^63` with a sign maps to `G_MININT64`). -/
def gAsciiStrtoll (s : List Char) (base : Nat) : Int × Nat :=
  let r := gParseLongLong s base
  (if r.negative then -(Int.ofNat (min r.magnitude (2 ^ 63)))
   else Int.ofNat (min r.magnitude (2 ^ 63 - 1)), r.consumed)

/-! ### Numeric / pointer conversions -/

open V8Value

/-- Embeds `BigInt::Int64Value` is lossless iff the value fits in a signed 64-bit
integer. -/
def bigIntLosslessI64 (n : Int) : Bool := G_MININT64 ≤ n ∧ n ≤ G_MAXINT64

/-- Embeds `BigInt::Uint64Value` is lossless iff the value fits in an unsigned
64-bit integer. -/
def bigIntLosslessU64 (n : Int) : Bool := 0 ≤ n ∧ n ≤ (G_MAXUINT64 : Int)

/-- Embeds `Value::IntegerValue`: V8's `NumberToInt64`, saturating at the signed
64-bit bounds (NaN, excluded from the integral model, maps to 0). -/
def integerValue (i : Int) : Int := max G_MININT64 (min i G_MAXINT64)

/-- Embeds `_gum_v8_int_get`. -/
def int_get : V8Value → Res Int
  | vNumber i =>
      if G_MININT ≤ i ∧ i ≤ G_MAXINT then .ok i else .fail .expectedInteger
  | vBigInt n =>
      if bigIntLosslessI64 n ∧ G_MININT ≤ n ∧ n ≤ G_MAXINT then .ok n
      else .fail .expectedInteger
  | _ => .fail .expectedInteger

/-- Embeds `_gum_v8_uint_get`. -/
def uint_get : V8Value → Res Nat
  | vNumber i =>
      if 0 ≤ i ∧ i ≤ (G_MAXUINT : Int) then .ok i.toNat
      else .fail .expectedUnsignedInteger
  | vBigInt n =>
      if bigIntLosslessU64 n ∧ n ≤ (G_MAXUINT : Int) then .ok n.toNat
      else .fail .expectedUnsignedInteger
  | _ => .fail .expectedUnsignedInteger

/-- Embeds `_gum_v8_int64_get`. -/
def int64_get : V8Value → Res Int
  | vNumber i => .ok (integerValue i)
  | vBigInt n => if bigIntLosslessI64 n then .ok n else .fail .expectedInteger
  | vInt64Obj v => .ok v
  | _ => .fail .expectedInteger

/-- Embeds `_gum_v8_uint64_get`.  A non-negative number is cast with
`(guint64) v`, undefined behaviour when the value reaches `2^64`. -/
def uint64_get : V8Value → Res Nat
  | vNumber i =>
      if 0 ≤ i then (if i < 2 ^ 64 then .ok i.toNat else .bad)
      else .fail .expectedUnsignedInteger
  | vBigInt n => if bigIntLosslessU64 n then .ok n.toNat else .fail .expectedUnsignedInteger
  | vUInt64Obj v => .ok v
  | _ => .fail .expectedUnsignedInteger

/-- Embeds `_gum_v8_int64_parse`: strings are parsed as hex when prefixed with
`0x` (checked case-sensitively at the very start), else as decimal; a
conversion that consumes nothing fails.  Both failure branches throw
"invalid hexadecimal string".  Non-strings fall back to the exact get. -/
def int64_parse (v : V8Value) : Res Int :=
  match v with
  | vString str =>
      let s := str.data
      if s.take 2 = ['0', 'x'] then
        let (value, consumed) := gAsciiStrtoll (s.drop 2) 16
        if consumed = 0 then .fail .invalidHexadecimalString else .ok value
      else
        let (value, consumed) := gAsciiStrtoll s 10
        if consumed = 0 then .fail .invalidHexadecimalString else .ok value
  | v => int64_get v

/-- Embeds `_gum_v8_uint64_parse`. -/
def uint64_parse (v : V8Value) : Res Nat :=
  match v with
  | vString str =>
      let s := str.data
      if s.take 2 = ['0', 'x'] then
        let (value, consumed) := gAsciiStrtoull (s.drop 2) 16
        if consumed = 0 then .fail .invalidHexadecimalString else .ok value
      else
        let (value, consumed) := gAsciiStrtoull s 10
        if consumed = 0 then .fail .invalidHexadecimalString else .ok value
  | v => uint64_get v

/-- Embeds `_gum_v8_size_get`. -/
def size_get : V8Value → Res Nat
  | vNumber i =>
      if 0 ≤ i then (if i < 2 ^ 64 then .ok i.toNat else .bad)
      else .fail .expectedUnsignedInteger
  | vBigInt n =>
      if bigIntLosslessU64 n ∧ n ≤ (G_MAXSIZE : Int) then .ok n.toNat
      else .fail .expectedUnsignedInteger
  | vUInt64Obj v => .ok v
  | vInt64Obj v =>
      if 0 ≤ v then .ok v.toNat else .fail .expectedUnsignedInteger
  | _ => .fail .expectedUnsignedInteger

/-- Embeds `_gum_v8_ssize_get`. -/
def ssize_get : V8Value → Res Int
  | vNumber i => .ok (integerValue i)
  | vBigInt n =>
      if bigIntLosslessI64 n ∧ G_MINSSIZE ≤ n ∧ n ≤ G_MAXSSIZE then .ok n
      else .fail .expectedInteger
  | vInt64Obj v => .ok v
  | vUInt64Obj v =>
      -- `(gssize)` of a `guint64`: two's-complement reinterpretation.
      .ok (if v < 2 ^ 63 then (v : Int) else (v : Int) - 2 ^ 64)
  | _ => .fail .expectedInteger

/-- Embeds `_gum_v8_native_pointer_get`: a `NativePointer` instance directly, or
any value convertible to an object that exposes a `handle` property which
is itself a `NativePointer` instance (one unwrap).  `ToObject` fails for
null and undefined. -/
def native_pointer_get (v : V8Value) : Res Nat :=
  match v with
  | vNativePointerObj a => .ok a
  | vNull => .fail .expectedPointer
  | vUndefined => .fail .expectedPointer
  | v =>
      match v.getProp "handle" with
      | some (vNativePointerObj a) => .ok a
      | _ => .fail .expectedPointer

/-- Embeds `_gum_v8_native_pointer_parse`: strings as hex/decimal text; numbers
with a negative value reinterpreted through a `gint64`/`gpointer` union
(two's complement; below `-2^63` or at `2^64` the double-to-integer cast
is undefined behaviour); BigInts truncated modulo `2^64`; `Int64`/`UInt64`
wrappers taken modulo `2^64`; anything else falls back to the exact get. -/
def native_pointer_parse (v : V8Value) : Res Nat :=
  match v with
  | vString str =>
      let s := str.data
      if s.take 2 = ['0', 'x'] then
        let (value, consumed) := gAsciiStrtoull (s.drop 2) 16
        if consumed = 0 then .fail .invalidHexadecimalString else .ok value
      else
        let (value, consumed) := gAsciiStrtoull s 10
        if consumed = 0 then .fail .invalidDecimalString else .ok value
  | vNumber i =>
      if i < 0 then
        if G_MININT64 ≤ i then .ok ((i + 2 ^ 64).toNat) else .bad
      else
        if i < 2 ^ 64 then .ok i.toNat else .bad
  | vBigInt n => .ok (n.emod (2 ^ 64)).toNat
  | vUInt64Obj u => .ok u
  | vInt64Obj iv => .ok (iv.emod (2 ^ 64)).toNat
  | v => native_pointer_get v

/-! ### The engine's `ToUint32` coercion (`Value::Uint32Value`)

External V8/ECMAScript semantics, embedded on the fragment this model
covers: numbers reduce modulo `2^32`; undefined, null, booleans and
strings coerce through `ToNumber` (strings on their integer-literal
fragment, every non-numeric string giving NaN hence 0); BigInts make
`ToNumber` throw, which is the only failing case; objects coerce through
`ToPrimitive` and are modelled coarsely as 0 (none of the verified
properties depends on their value, only on the fact that they succeed). -/

/-- Integer fragment of the ECMAScript `StringNumericLiteral` grammar:
optionally signed decimal, or unsigned `0x`/`0X` hexadecimal; the empty
(or all-whitespace) string is 0; anything else is NaN (`none`). -/
def jsStringToInt? (s : String) : Option Int :=
  let t := (s.data.dropWhile isAsciiSpaceC).reverse.dropWhile isAsciiSpaceC |>.reverse
  match t with
  | [] => some 0
  | '0' :: x :: rest =>
      if x = 'x' ∨ x = 'X' then
        if rest ≠ [] ∧ rest.all (isBaseDigit 16) then
          some (Int.ofNat (rest.foldl (fun a c => a * 16 + (gDigitVal c).getD 0) 0))
        else none
      else
        if t.all (isBaseDigit 10) then
          some (Int.ofNat (t.foldl (fun a c => a * 10 + (gDigitVal c).getD 0) 0))
        else none
  | '-' :: rest =>
      if rest ≠ [] ∧ rest.all (isBaseDigit 10) then
        some (-(Int.ofNat (rest.foldl (fun a c => a * 10 + (gDigitVal c).getD 0) 0)))
      else none
  | '+' :: rest =>
      if rest ≠ [] ∧ rest.all (isBaseDigit 10) then
        some (Int.ofNat (rest.foldl (fun a c => a * 10 + (gDigitVal c).getD 0) 0))
      else none
  | _ =>
      if t.all (isBaseDigit 10) then
        some (Int.ofNat (t.foldl (fun a c => a * 10 + (gDigitVal c).getD 0) 0))
      else none

/-- Embeds `Value::Uint32Value`: `none` models `Maybe::IsNothing` (the coercion
threw). -/
def uint32Value : V8Value → Option Nat
  | vNumber i => some (i.emod (2 ^ 32)).toNat
  | vBool b => some (if b then 1 else 0)
  | vNull => some 0
  | vUndefined => some 0
  | vString s =>
      some (match jsStringToInt? s with
            | some i => (i.emod (2 ^ 32)).toNat
            | none => 0)
  | vBigInt _ => none
  | _ => some 0

/-! ### Byte buffers (`_gum_v8_bytes_try_get` and friends) -/

/-- The element loop of `_gum_v8_bytes_try_get` on an array: each element
is coerced with `Uint32Value` and stored into a `guint8` (truncation
modulo 256); the first element whose coercion fails aborts the whole
conversion and the partially filled buffer is freed. -/
def bytesFromArrayElems : List V8Value → Option (List Nat)
  | [] => some []
  | v :: rest =>
      match uint32Value v with
      | some e =>
          match bytesFromArrayElems rest with
          | some bs => some ((e % 256) :: bs)
          | none => none
      | none => none

/-- Embeds `_gum_v8_bytes_try_get`. -/
def bytes_try_get : V8Value → Option (List Nat)
  | vArrayBuffer data => some data
  | vArrayBufferView data => some data
  | vArray elems =>
      if elems.length > GUM_MAX_SEND_ARRAY_LENGTH then none
      else bytesFromArrayElems elems
  | _ => none

/-- Embeds `_gum_v8_bytes_get`. -/
def bytes_get (v : V8Value) : Res (List Nat) :=
  match bytes_try_get v with
  | some bs => .ok bs
  | none => .fail .unsupportedDataValue

/-- Embeds `_gum_v8_bytes_parse`: a string contributes its raw UTF-8 bytes. -/
def bytes_parse (v : V8Value) : Res (List Nat) :=
  match v with
  | vString s => .ok (s.toUTF8.toList.map (·.toNat))
  | v => bytes_get v

/-! ### Memory ranges -/

/-- Embeds `_gum_v8_memory_range_get`: an object with a `base` property resolving
to a pointer and a numeric `size` property (taken through `Uint32Value`).
Both fields of the output range are written only after full validation. -/
def memory_range_get (v : V8Value) : Res (Nat × Nat) :=
  if ¬ v.isObject then .fail .expectedRangeObject
  else
    match native_pointer_get ((v.getProp "base").getD vUndefined) with
    | .fail e => .fail e
    | .bad => .bad
    | .ok base =>
        match (v.getProp "size").getD vUndefined with
        | vNumber i => .ok (base, (i.emod (2 ^ 32)).toNat)
        | _ => .fail .invalidRangeSize

/-- The element loop of `_gum_v8_memory_ranges_get` over an array
(failure frees the growable array before returning NULL). -/
def memoryRangesFromElems : List V8Value → Res (List (Nat × Nat))
  | [] => .ok []
  | v :: rest =>
      match memory_range_get v with
      | .ok r =>
          match memoryRangesFromElems rest with
          | .ok rs => .ok (r :: rs)
          | other => other
      | .fail e => .fail e
      | .bad => .bad

/-- Embeds `_gum_v8_memory_ranges_get`. -/
def memory_ranges_get (v : V8Value) : Res (List (Nat × Nat)) :=
  match v with
  | vArray elems => memoryRangesFromElems elems
  | v =>
      if v.isObject then
        match memory_range_get v with
        | .ok r => .ok [r]
        | .fail e => .fail e
        | .bad => .bad
      else .fail .expectedRangeOrArray

/-! ### Page protection (GumPageProtection bitmask: R=1, W=2, X=4) -/

def GUM_PAGE_NO_ACCESS : Nat := 0
def GUM_PAGE_READ : Nat := 1
def GUM_PAGE_WRITE : Nat := 2
def GUM_PAGE_EXECUTE : Nat := 4

/-- Embeds `_gum_v8_page_protection_new`: always a 3-character string, positions
read/write/execute in that order, each either its letter or `-`. -/
def page_protection_new (prot : Nat) : String :=
  String.mk
    [if prot &&& GUM_PAGE_READ ≠ 0 then 'r' else '-',
     if prot &&& GUM_PAGE_WRITE ≠ 0 then 'w' else '-',
     if prot &&& GUM_PAGE_EXECUTE ≠ 0 then 'x' else '-']

/-- The character loop of `_gum_v8_page_protection_get`. -/
def pageProtectionFold : List Char → Nat → Res Nat
  | [], acc => .ok acc
  | c :: rest, acc =>
      if c = 'r' then pageProtectionFold rest (acc ||| GUM_PAGE_READ)
      else if c = 'w' then pageProtectionFold rest (acc ||| GUM_PAGE_WRITE)
      else if c = 'x' then pageProtectionFold rest (acc ||| GUM_PAGE_EXECUTE)
      else if c = '-' then pageProtectionFold rest acc
      else .fail .invalidProtectionChar

/-- Embeds `_gum_v8_page_protection_get`. -/
def page_protection_get : V8Value → Res Nat
  | vString s => pageProtectionFold s.data GUM_PAGE_NO_ACCESS
  | _ => .fail .expectedProtectionString

/-! ### CPU context and match patterns (as used by the parser) -/

/-- Embeds `_gum_v8_cpu_context_get`. -/
def cpu_context_get : V8Value → Res Nat
  | vCpuContextObj c => .ok c
  | _ => .fail .expectedCpuContext

/-- Modelled from the spec: `gum_match_pattern_new_from_string` lives in
the instrumentation engine, outside this file; pattern compilation either
yields a new reference-counted pattern or fails (`InvalidPattern`).  Only
the success/failure alternative is observable to the parser, so
compilation failure is abstracted as rejecting the empty string. -/
def gum_match_pattern_new_from_string (s : String) : Bool :=
  ¬ s.isEmpty

/-! ### The transactional scope (`GumV8ArgsParseScope`)

Each staged allocation is identified by a fresh id drawn from a counter
threaded through the parse, and is recorded in exactly one of the four
collections.  For the reference-counted match patterns an id stands for
one staged reference (one pending `gum_match_pattern_unref`). -/

inductive AllocKind where
  | str   -- `g_free` (duplicated strings)
  | arr   -- `g_array_unref` (memory-range arrays)
  | byt   -- `g_bytes_unref` (byte buffers)
  | pat   -- `gum_match_pattern_unref` (match-pattern references)
deriving DecidableEq, Repr

structure Scope where
  committed : Bool
  strings : List Nat
  arrays : List Nat
  bytes : List Nat
  matchPatterns : List Nat
deriving Repr

def Scope.empty : Scope := ⟨false, [], [], [], []⟩

/-- Stage one allocation of kind `k` under the fresh id `n` (the scope
prepends, as `g_slist_prepend` does). -/
def stageOne (s : Scope) (n : Nat) (k : AllocKind) : Scope × Nat :=
  match k with
  | .str => ({ s with strings := n :: s.strings }, n + 1)
  | .arr => ({ s with arrays := n :: s.arrays }, n + 1)
  | .byt => ({ s with bytes := n :: s.bytes }, n + 1)
  | .pat => ({ s with matchPatterns := n :: s.matchPatterns }, n + 1)

def applyStages : Scope → Nat → List AllocKind → Scope × Nat
  | s, n, [] => (s, n)
  | s, n, k :: ks =>
      let (s', n') := stageOne s n k
      applyStages s' n' ks

/-- Every allocation currently staged in the scope, tagged with the
type-specific destructor that would release it. -/
def stagedAllocs (s : Scope) : List (AllocKind × Nat) :=
  s.strings.map (AllocKind.str, ·) ++ s.arrays.map (AllocKind.arr, ·) ++
  s.bytes.map (AllocKind.byt, ·) ++ s.matchPatterns.map (AllocKind.pat, ·)

/-- The scope destructor, run when `_gum_v8_args_parse` returns: without a
commit it releases every staged allocation through its type-specific
destructor (`g_free`, `g_array_unref`, `g_bytes_unref`,
`gum_match_pattern_unref`, in that collection order); after a commit it
releases nothing. -/
def scopeReleased (s : Scope) : List (AllocKind × Nat) :=
  if s.committed then [] else stagedAllocs s

/-! ### Output slots

One constructor per kind of `va_arg` output slot the parser writes. -/

inductive OutVal where
  | int (i : Int)
  | uint (u : Nat)
  | int64 (i : Int)
  | uint64 (u : Nat)
  | ssize (i : Int)
  | size (u : Nat)
  | num (d : Int)
  | boolean (b : Bool)
  | ptr (p : Nat)
  | ext (p : Nat)
  | str (s : Option String)
  | stdStr (s : String)
  | range (base : Nat) (size : Nat)
  | ranges (rs : List (Nat × Nat))
  | prot (p : Nat)
  | val (v : V8Value)
  | obj (o : Option V8Value)
  | arr (a : Option V8Value)
  | fn (f : Option Nat)
  | fnPtr (p : Option Nat)
  | bytes (b : Option (List Nat))
  | cpuCtx (c : Option Nat)
  | matchPatNew (s : String)
  | matchPatRef (p : Nat)

/-- Outcome of processing one tag: the remaining format after the tag's
modifier characters, the output slots written (in order) and the
allocations staged; or a thrown error; or C undefined behaviour
(unknown tag → `g_assert_not_reached`, malformed callback sub-grammar →
out-of-bounds `strchr`/`strncpy`). -/
inductive StepOut where
  | next (rest : List Char) (writes : List OutVal) (stages : List AllocKind)
  | fail (e : GumError)
  | bad

def resHandle {α} (r : Res α) (k : α → StepOut) : StepOut :=
  match r with
  | .ok a => k a
  | .fail e => .fail e
  | .bad => .bad

/-- One entry of the callback sub-grammar (`F{name,name?,...}`): the named
property must be a function, may be undefined when marked optional, and
may be a `NativePointer` instance when the `*` modifier is active. -/
def callbackSlots (value : V8Value) (acceptsPointer : Bool)
    (isOptional : Bool) : Res (List OutVal) :=
  match value with
  | vFunction fid =>
      .ok ([.fn (some fid)] ++ if acceptsPointer then [.fnPtr none] else [])
  | vUndefined =>
      if isOptional then
        .ok ([.fn none] ++ if acceptsPointer then [.fnPtr none] else [])
      else .fail .expectedCallbackValue
  | vNativePointerObj a =>
      if acceptsPointer then .ok [.fn none, .fnPtr (some a)]
      else .fail .expectedCallbackValue
  | _ => .fail .expectedCallbackValue

/-- The `do`/`while` over the names of `F{...}`: each iteration isolates
the name before the next `,` or the closing `}` (through `strchr` into a
64-byte buffer — an empty name, a name longer than the buffer, or a
missing `}` is undefined behaviour), fetches that property of the
callbacks object, and writes the function (and, with `*`, pointer) slots.
The fuel is bounded by the format length (each iteration consumes at
least one character). -/
def parseCallbacks (arg : V8Value) (acceptsPointer : Bool) :
    Nat → List Char → List OutVal → StepOut
  | 0, _, _ => .bad
  | fuel + 1, t, acc =>
      match t.findIdx? (· = '}') with
      | none => .bad
      | some endPos =>
          let tEnd :=
            match t.findIdx? (· = ',') with
            | some n => if n < endPos then n else endPos
            | none => endPos
          if tEnd = 0 then .bad
          else if 64 < tEnd then .bad
          else
            let raw := t.take tEnd
            let isOptional := raw.getLast? = some '?'
            if tEnd = 64 ∧ ¬ isOptional then .bad
            else
              let name := String.mk (if isOptional then raw.dropLast else raw)
              let value := (arg.getProp name).getD vUndefined
              match callbackSlots value acceptsPointer isOptional with
              | .fail e => .fail e
              | .bad => .bad
              | .ok ws =>
                  if tEnd = endPos then .next (t.drop (endPos + 1)) (acc ++ ws) []
                  else parseCallbacks arg acceptsPointer fuel (t.drop (tEnd + 1)) (acc ++ ws)

/-! Each case of the `switch` in `_gum_v8_args_parse` is embedded as its
own definition; `stepTag` is the dispatch on the tag character.  Each
case receives the remaining format `t` (for its modifier peeks) and the
current — present, non-undefined — argument. -/

/-- Tag `i`. -/
def tag_int (t : List Char) (arg : V8Value) : StepOut :=
  resHandle (int_get arg) fun i => .next t [.int i] []

/-- Tag `u`. -/
def tag_uint (t : List Char) (arg : V8Value) : StepOut :=
  resHandle (uint_get arg) fun u => .next t [.uint u] []

/-- Tag `q`, with the `~` fuzzy modifier. -/
def tag_int64 (t : List Char) (arg : V8Value) : StepOut :=
  let isFuzzy := t.head? = some '~'
  let t' := if isFuzzy then t.tail else t
  resHandle (if isFuzzy then int64_parse arg else int64_get arg) fun i =>
    .next t' [.int64 i] []

/-- Tag `Q`, with the `~` fuzzy modifier. -/
def tag_uint64 (t : List Char) (arg : V8Value) : StepOut :=
  let isFuzzy := t.head? = some '~'
  let t' := if isFuzzy then t.tail else t
  resHandle (if isFuzzy then uint64_parse arg else uint64_get arg) fun u =>
    .next t' [.uint64 u] []

/-- Tag `z`. -/
def tag_ssize (t : List Char) (arg : V8Value) : StepOut :=
  resHandle (ssize_get arg) fun i => .next t [.ssize i] []

/-- Tag `Z`. -/
def tag_size (t : List Char) (arg : V8Value) : StepOut :=
  resHandle (size_get arg) fun u => .next t [.size u] []

/-- Tag `n`. -/
def tag_number (t : List Char) (arg : V8Value) : StepOut :=
  match arg with
  | vNumber i => .next t [.num i] []
  | _ => .fail .expectedNumber

/-- Tag `t`. -/
def tag_boolean (t : List Char) (arg : V8Value) : StepOut :=
  match arg with
  | vBool b => .next t [.boolean b] []
  | _ => .fail .expectedBoolean

/-- Tag `p`, with the `~` fuzzy modifier. -/
def tag_pointer (t : List Char) (arg : V8Value) : StepOut :=
  let isFuzzy := t.head? = some '~'
  let t' := if isFuzzy then t.tail else t
  resHandle (if isFuzzy then native_pointer_parse arg else native_pointer_get arg)
    fun p => .next t' [.ptr p] []

/-- Tag `X`. -/
def tag_external (t : List Char) (arg : V8Value) : StepOut :=
  match arg with
  | vExternal p => .next t [.ext p] []
  | _ => .fail .expectedExternalPointer

/-- Tag `s`, with the `?` nullable modifier; a duplicated string is
staged in the scope. -/
def tag_string (t : List Char) (arg : V8Value) : StepOut :=
  let isNullable := t.head? = some '?'
  let t' := if isNullable then t.tail else t
  if isNullable ∧ arg.isNull then .next t' [.str none] []
  else
    match arg with
    | vString s => .next t' [.str (some s)] [.str]
    | _ => .fail .expectedString

/-- Tag `S`. -/
def tag_std_string (t : List Char) (arg : V8Value) : StepOut :=
  match arg with
  | vString s => .next t [.stdStr s] []
  | _ => .fail .expectedString

/-- Tag `r`. -/
def tag_range (t : List Char) (arg : V8Value) : StepOut :=
  resHandle (memory_range_get arg) fun r => .next t [.range r.1 r.2] []

/-- Tag `R`; the growable array is staged in the scope. -/
def tag_ranges (t : List Char) (arg : V8Value) : StepOut :=
  resHandle (memory_ranges_get arg) fun rs => .next t [.ranges rs] [.arr]

/-- Tag `m`. -/
def tag_protection (t : List Char) (arg : V8Value) : StepOut :=
  resHandle (page_protection_get arg) fun p => .next t [.prot p] []

/-- Tag `V`. -/
def tag_value (t : List Char) (arg : V8Value) : StepOut :=
  .next t [.val arg] []

/-- Tag `O`, with the `?` nullable modifier. -/
def tag_object (t : List Char) (arg : V8Value) : StepOut :=
  let isNullable := t.head? = some '?'
  let t' := if isNullable then t.tail else t
  if isNullable ∧ arg.isNull then .next t' [.obj none] []
  else if arg.isObject then .next t' [.obj (some arg)] []
  else .fail .expectedObject

/-- Tag `A`, with the `?` nullable modifier (the array test comes
first). -/
def tag_array (t : List Char) (arg : V8Value) : StepOut :=
  let isNullable := t.head? = some '?'
  let t' := if isNullable then t.tail else t
  if arg.isArray then .next t' [.arr (some arg)] []
  else if isNullable ∧ arg.isNull then .next t' [.arr none] []
  else .fail .expectedArray

/-- Tag `F`, with the `*` pointer modifier, the `{...}` callbacks
sub-grammar and the `?` nullable modifier. -/
def tag_function (t : List Char) (arg : V8Value) : StepOut :=
  let acceptsPointer := t.head? = some '*'
  let t1 := if acceptsPointer then t.tail else t
  if t1.head? = some '{' then
    if arg.isObject = false then .fail .expectedCallbacksObject
    else parseCallbacks arg acceptsPointer t1.tail.length t1.tail []
  else
    let isNullable := t1.head? = some '?'
    let t2 := if isNullable then t1.tail else t1
    match arg with
    | vFunction fid =>
        .next t2 ([.fn (some fid)] ++ if acceptsPointer then [.fnPtr none] else []) []
    | vNull =>
        if isNullable then
          .next t2 ([.fn none] ++ if acceptsPointer then [.fnPtr none] else []) []
        else .fail .expectedFunction
    | vNativePointerObj a =>
        if acceptsPointer then .next t2 [.fn none, .fnPtr (some a)] []
        else .fail .expectedFunction
    | _ => .fail .expectedFunction

/-- Tag `B`, with the `~` fuzzy and `?` nullable modifiers; a non-null
byte buffer is staged in the scope. -/
def tag_bytes (t : List Char) (arg : V8Value) : StepOut :=
  let isFuzzy := t.head? = some '~'
  let t1 := if isFuzzy then t.tail else t
  let isNullable := t1.head? = some '?'
  let t2 := if isNullable then t1.tail else t1
  if isNullable ∧ arg.isNull then .next t2 [.bytes none] []
  else
    resHandle (if isFuzzy then bytes_parse arg else bytes_get arg) fun bs =>
      .next t2 [.bytes (some bs)] [.byt]

/-- Tag `C`, with the `?` nullable modifier. -/
def tag_cpu_context (t : List Char) (arg : V8Value) : StepOut :=
  let isNullable := t.head? = some '?'
  let t' := if isNullable then t.tail else t
  if isNullable ∧ arg.isNull then .next t' [.cpuCtx none] []
  else
    resHandle (cpu_context_get arg) fun cc => .next t' [.cpuCtx (some cc)] []

/-- Tag `M`; both alternatives stage one pattern reference in the
scope. -/
def tag_match_pattern (t : List Char) (arg : V8Value) : StepOut :=
  match arg with
  | vString s =>
      if gum_match_pattern_new_from_string s then .next t [.matchPatNew s] [.pat]
      else .fail .invalidMatchPattern
  | vMatchPatternObj p => .next t [.matchPatRef p] [.pat]
  | _ => .fail .expectedPattern

/-- Processing of a single non-`|` format tag `c` (the `switch` of
`_gum_v8_args_parse`); an unknown tag is `g_assert_not_reached`. -/
def stepTag (c : Char) (t : List Char) (arg : V8Value) : StepOut :=
  if c = 'i' then tag_int t arg
  else if c = 'u' then tag_uint t arg
  else if c = 'q' then tag_int64 t arg
  else if c = 'Q' then tag_uint64 t arg
  else if c = 'z' then tag_ssize t arg
  else if c = 'Z' then tag_size t arg
  else if c = 'n' then tag_number t arg
  else if c = 't' then tag_boolean t arg
  else if c = 'p' then tag_pointer t arg
  else if c = 'X' then tag_external t arg
  else if c = 's' then tag_string t arg
  else if c = 'S' then tag_std_string t arg
  else if c = 'r' then tag_range t arg
  else if c = 'R' then tag_ranges t arg
  else if c = 'm' then tag_protection t arg
  else if c = 'V' then tag_value t arg
  else if c = 'O' then tag_object t arg
  else if c = 'A' then tag_array t arg
  else if c = 'F' then tag_function t arg
  else if c = 'B' then tag_bytes t arg
  else if c = 'C' then tag_cpu_context t arg
  else if c = 'M' then tag_match_pattern t arg
  else .bad

/-! ### The parse loop -/

/-- Outcome of `_gum_v8_args_parse`: `TRUE` with the written slots and the
(at top level, committed) scope; or `FALSE` with the thrown error, the
slots already written, and the uncommitted scope as left at the failure
point; or undefined behaviour. -/
inductive ParseOut where
  | ok (outs : List OutVal) (scope : Scope) (ctr : Nat)
  | fail (e : GumError) (outs : List OutVal) (scope : Scope) (ctr : Nat)
  | bad

/-- The `for (t = format; *t != '\0'; t++)` loop.  The fuel is the format
length (each step consumes at least one format character); running out of
fuel is collapsed into `bad`, which the sufficiency lemma shows is never
produced by `args_parse` for formats made of known tags. -/
def parseLoop (args : List V8Value) :
    Nat → List Char → Nat → Bool → Scope → Nat → List OutVal → ParseOut
  | _, [], _, _, s, n, outs => .ok outs s n
  | 0, _ :: _, _, _, _, _, _ => .bad
  | fuel + 1, c :: t, idx, required, s, n, outs =>
      if c = '|' then parseLoop args fuel t idx false s n outs
      else
        match args[idx]? with
        | none =>
            if required then .fail .missingArgument outs s n else .ok outs s n
        | some arg =>
            if arg.isUndefined then
              if required then .fail .missingArgument outs s n else .ok outs s n
            else
              match stepTag c t arg with
              | .fail e => .fail e outs s n
              | .bad => .bad
              | .next rest ws stages =>
                  let (s', n') := applyStages s n stages
                  parseLoop args fuel rest (idx + 1) required s' n' (outs ++ ws)

/-- Embeds `_gum_v8_args_parse`: run the loop from a fresh scope; on success the
scope is committed before the destructor runs. -/
def args_parse (format : String) (args : List V8Value) : ParseOut :=
  match parseLoop args format.data.length format.data 0 true Scope.empty 0 [] with
  | .ok outs s n => .ok outs { s with committed := true } n
  | r => r

/-! ### Error message casing (`_gum_v8_error_new_take_error`,
`_gum_v8_error_get_message`)

The `g_unichar_isupper`/`tolower`/`toupper` calls are modelled by Lean's
ASCII character classifiers, with which they agree on the ASCII range. -/

/-- The acronym heuristic: the first two characters are both uppercase
letters (this requires the message to have at least two characters). -/
def probablyStartsWithAcronym (m : String) : Bool :=
  match m.data with
  | c1 :: c2 :: _ => c1.isUpper && c2.isUpper
  | _ => false

/-- The message transform of `_gum_v8_error_new_take_error`: verbatim for
probable acronyms, else the first character is lower-cased.  (`GError`
messages are non-empty; the empty string is mapped to itself.) -/
def error_new_take_error (m : String) : String :=
  if probablyStartsWithAcronym m then m
  else
    match m.data with
    | [] => ""
    | c :: rest => String.mk (c.toLower :: rest)

/-- The inverse extraction `_gum_v8_error_get_message`: the first
character is upper-cased. -/
def error_get_message (m : String) : String :=
  match m.data with
  | [] => ""
  | c :: rest => String.mk (c.toUpper :: rest)

/-! ### Native resource registry (`_gum_v8_native_resource_new` /
`_gum_v8_native_resource_free` / `gum_v8_native_resource_on_weak_notify`)

The registry is modelled as a state machine.  A resource record carries
the native address, the byte size and whether a destructor callback was
supplied; `core->native_resources` is the tracking set (ids present in
the hash table); `externalMem` is the isolate's external-memory
accounting; `notifyLog`/`freedLog` record destructor-callback invocations
and record deallocations, observing the "exactly once" obligations. -/

structure NativeResource where
  data : Nat
  size : Nat
  hasNotify : Bool
deriving Repr, DecidableEq

structure ResourceWorld where
  externalMem : Int
  nativeResources : List Nat
  records : List (Nat × NativeResource)
  nextId : Nat
  notifyLog : List Nat
  freedLog : List Nat
deriving Repr

def ResourceWorld.empty : ResourceWorld := ⟨0, [], [], 0, [], []⟩

/-- Embeds `_gum_v8_native_resource_new`: allocate the record, make the handle
weak with the weak-notify callback, adjust the external-memory accounting
upward by `size`, and add the record to the tracking set. -/
def native_resource_new (w : ResourceWorld) (dataAddr size : Nat)
    (hasNotify : Bool) : Nat × ResourceWorld :=
  let id := w.nextId
  (id,
   { w with
       externalMem := w.externalMem + size
       nativeResources := id :: w.nativeResources
       records := (id, ⟨dataAddr, size, hasNotify⟩) :: w.records
       nextId := id + 1 })

/-- Embeds `_gum_v8_native_resource_free`: adjust the accounting downward by
`size`, invoke the destructor callback (if present) on the native
address, and free the record. -/
def native_resource_free (w : ResourceWorld) (id : Nat) : ResourceWorld :=
  match w.records.lookup id with
  | some r =>
      { w with
          externalMem := w.externalMem - r.size
          records := w.records.filter (fun p => p.1 ≠ id)
          notifyLog := w.notifyLog ++ (if r.hasNotify then [r.data] else [])
          freedLog := w.freedLog ++ [id] }
  | none => w

/-- Modelled from the spec: `core->native_resources` is created (outside
this file, in the runtime's core setup) as a hash set whose value-destroy
callback is `_gum_v8_native_resource_free`, so `g_hash_table_remove` of a
present record invokes the free exactly once, and removing an absent
record does nothing. -/
def g_hash_table_remove_resource (w : ResourceWorld) (id : Nat) : ResourceWorld :=
  if id ∈ w.nativeResources then
    native_resource_free { w with nativeResources := w.nativeResources.erase id } id
  else w

/-- Embeds `gum_v8_native_resource_on_weak_notify`: the GC finalization
notification removes the record from the tracking set (which, through the
set's destroy callback, frees it). -/
def native_resource_on_weak_notify (w : ResourceWorld) (id : Nat) : ResourceWorld :=
  g_hash_table_remove_resource w id

/-- Well-formedness: every tracked or recorded id was allocated, and the
tracking set and record table have no duplicates. -/
def ResourceWorld.WF (w : ResourceWorld) : Prop :=
  (∀ id ∈ w.nativeResources, id < w.nextId) ∧
  (∀ p ∈ w.records, p.1 < w.nextId) ∧
  (∀ id ∈ w.freedLog, id < w.nextId) ∧
  w.nativeResources.Nodup

/-! ### CPU-context snapshot lifecycle (`_gum_v8_cpu_context_free_later` /
`gum_cpu_context_on_weak_notify`)

`GumCpuContext` structures live in an arena of slots (an id is an index);
a handle stores the structure pointer in internal field 0 and the
mutability flag in internal field 1.  `freedCtxLog` records each
`g_slice_free (GumCpuContext, ...)`, `wrapperFreed` whether this
wrapper's `g_slice_free (GumCpuContextWrapper, ...)` ran. -/

structure GumCpuContext where
  regs : List Nat
deriving Repr, DecidableEq

structure CpuArena where
  slots : List (Option GumCpuContext)
  freedCtxLog : List Nat
deriving Repr

structure CpuHandle where
  ptrField : Nat
  isMutable : Bool
deriving Repr, DecidableEq

structure CpuContextWrapper where
  cpu_context : Nat
  wrapperFreed : Bool
deriving Repr, DecidableEq

/-- Reading internal field 0 and dereferencing: the register structure the
handle currently aliases. -/
def readCpuContext (a : CpuArena) (h : CpuHandle) : Option GumCpuContext :=
  (a.slots[h.ptrField]?).getD none

/-- Embeds `_gum_v8_cpu_context_free_later`: deep-copy (`g_slice_dup`) the
aliased register structure into a fresh owned slot, re-point the handle at
the copy, mark it immutable, and register a weak wrapper that frees the
copy when the handle is collected.  `none` when the handle does not alias
a live structure (dangling pointer dereference). -/
def cpu_context_free_later (a : CpuArena) (h : CpuHandle) :
    Option (CpuArena × CpuHandle × CpuContextWrapper) :=
  match readCpuContext a h with
  | some original =>
      let copyId := a.slots.length
      some ({ a with slots := a.slots ++ [some original] },
            { ptrField := copyId, isMutable := false },
            { cpu_context := copyId, wrapperFreed := false })
  | none => none

/-- A later native-side mutation of the structure the handle aliased
before the snapshot (the engine restoring/reusing the register storage). -/
def mutateNativeContext (a : CpuArena) (id : Nat) (newCtx : Option GumCpuContext) :
    CpuArena :=
  { a with slots := a.slots.set id newCtx }

/-- Embeds `gum_cpu_context_on_weak_notify`: delete the global handle, free the
owned copy (`g_slice_free`), free the wrapper. -/
def cpu_context_on_weak_notify (a : CpuArena) (w : CpuContextWrapper) :
    CpuArena × CpuContextWrapper :=
  ({ a with
       slots := a.slots.set w.cpu_context none
       freedCtxLog := a.freedCtxLog ++ [w.cpu_context] },
   { w with wrapperFreed := true })

/-! ### Spec-side characterizations

Definitions below phrase the specification's wording independently of the
embedded code, so the theorems compare two formulations. -/

/-- Spec-side view of a numeric string: the characters remaining after
the C-locale whitespace skip and one optional `+`/`-` sign. -/
def afterWsAndSign (s : List Char) : List Char :=
  match s.dropWhile isAsciiSpaceC with
  | '-' :: r => r
  | '+' :: r => r
  | r => r

/-- Spec-side: the subject sequence offers at least one digit of the base
to consume. -/
def startsWithBaseDigit (base : Nat) (s : List Char) : Bool :=
  match afterWsAndSign s with
  | c :: _ => isBaseDigit base c
  | [] => false

/-- Spec-side: the two recognized textual numeric forms — with a leading
`0x` (case-sensitively, at the very start) the rest must offer a
hexadecimal digit; otherwise the string must offer a decimal digit —
after whitespace and an optional sign in both cases. -/
def recognizedNumericText (s : String) : Bool :=
  if s.data.take 2 = ['0', 'x'] then startsWithBaseDigit 16 (s.data.drop 2)
  else startsWithBaseDigit 10 s.data

/-- Spec-side: the page-protection alphabet. -/
def protAlphabet (c : Char) : Bool :=
  c = 'r' || c = 'w' || c = 'x' || c = '-'

/-- Spec-side: protection flags as a function of which letters occur in
the string, regardless of order, position or multiplicity. -/
def protOfChars (cs : List Char) : Nat :=
  (if cs.contains 'r' then GUM_PAGE_READ else 0) |||
  (if cs.contains 'w' then GUM_PAGE_WRITE else 0) |||
  (if cs.contains 'x' then GUM_PAGE_EXECUTE else 0)

/-- The engine argument at position `idx` is absent, or is the explicit
missing sentinel `undefined`. -/
def argMissingAt (args : List V8Value) (idx : Nat) : Bool :=
  match args[idx]? with
  | none => true
  | some a => a.isUndefined

/-- All ids currently staged in a scope, across the four collections. -/
def allStagedIds (s : Scope) : List Nat :=
  s.strings ++ s.arrays ++ s.bytes ++ s.matchPatterns

/-- Invariant of the scope during a parse: not yet committed, every
staged id below the allocation counter, and no id staged twice. -/
def ScopeOK (s : Scope) (n : Nat) : Prop :=
  s.committed = false ∧ (∀ id ∈ allStagedIds s, id < n) ∧ (allStagedIds s).Nodup

/-- The scope invariant, read off a parse-loop outcome. -/
def ScopeOKResult : ParseOut → Prop
  | .ok _ s n => ScopeOK s n
  | .fail _ _ s n => ScopeOK s n
  | .bad => True

/-! ## Theorems -/

/-! ### C4 — fuzzy pointer parsing of strings and negative numbers -/

/-- C4: the fuzzy pointer parse maps `"0x1000"` to 4096, `"4096"` to
4096, and the plain number `-1` to the all-ones 64-bit pattern; every
representable negative plain number is reinterpreted as its
two's-complement 64-bit address. -/
theorem gum_native_pointer_parse_fuzzy_numeric :
    native_pointer_parse (.vString "0x1000") = .ok 4096 ∧
    native_pointer_parse (.vString "4096") = .ok 4096 ∧
    native_pointer_parse (.vNumber (-1)) = .ok (2 ^ 64 - 1) ∧
    (∀ i : Int, G_MININT64 ≤ i → i < 0 →
      native_pointer_parse (.vNumber i) = .ok (i + 2 ^ 64).toNat) := by
  refine ⟨rfl, rfl, rfl, fun i h1 h2 => ?_⟩
  simp only [native_pointer_parse, if_pos h2, if_pos h1]

/-- Witness for C4 at the concrete negative input `-2`. -/
theorem gum_native_pointer_parse_fuzzy_numeric_witness :
    G_MININT64 ≤ (-2 : Int) ∧ (-2 : Int) < 0 ∧
    native_pointer_parse (.vNumber (-2)) = .ok (2 ^ 64 - 2) := by
  refine ⟨by decide, by decide, ?_⟩
  have h := gum_native_pointer_parse_fuzzy_numeric.2.2.2 (-2) (by decide) (by decide)
  have he : ((-2 : Int) + 2 ^ 64).toNat = 2 ^ 64 - 2 := by decide
  rw [he] at h
  exact h

/-! ### C6 — error-message casing heuristic -/

/-- C6: native-to-script error marshalling keeps the message verbatim
exactly when the first two characters are both uppercase letters, and
otherwise lower-cases only the first character; the inverse extraction
upper-cases only the first character.  In particular `"bad pointer"` and
`"URL invalid"` marshal unchanged, and extraction of `"bad pointer"`
yields `"Bad pointer"`. -/
theorem gum_error_message_casing :
    error_new_take_error "bad pointer" = "bad pointer" ∧
    error_new_take_error "URL invalid" = "URL invalid" ∧
    error_get_message "bad pointer" = "Bad pointer" ∧
    (∀ m : String, probablyStartsWithAcronym m = true → error_new_take_error m = m) ∧
    (∀ (m : String) (c : Char) (rest : List Char), m.data = c :: rest →
      probablyStartsWithAcronym m = false →
      (error_new_take_error m).data = c.toLower :: rest) ∧
    (∀ (m : String) (c : Char) (rest : List Char), m.data = c :: rest →
      (error_get_message m).data = c.toUpper :: rest) := by
  refine ⟨by decide, by decide, by decide, fun m h => ?_, fun m c rest hm h => ?_, fun m c rest hm => ?_⟩
  · simp [error_new_take_error, h]
  · simp [error_new_take_error, h, hm]
  · simp [error_get_message, hm]

/-- Witness for C6, lower-casing a non-acronym message at a concrete
input. -/
theorem gum_error_message_casing_witness :
    probablyStartsWithAcronym "Url broken" = false ∧
    (error_new_take_error "Url broken").data = 'u' :: "rl broken".data :=
  ⟨by decide,
   gum_error_message_casing.2.2.2.2.1 "Url broken" 'U' "rl broken".data rfl (by decide)⟩

/-! ### C9 — page-protection strings -/

theorem protOfChars_cons_r (rest : List Char) :
    protOfChars ('r' :: rest) = 1 ||| protOfChars rest := by
  simp only [protOfChars, List.contains_cons]
  cases hr : rest.contains 'r' <;> cases hw : rest.contains 'w' <;>
    cases hx : rest.contains 'x' <;> simp [hr, hw, hx] <;> decide

theorem protOfChars_cons_w (rest : List Char) :
    protOfChars ('w' :: rest) = 2 ||| protOfChars rest := by
  simp only [protOfChars, List.contains_cons]
  cases hr : rest.contains 'r' <;> cases hw : rest.contains 'w' <;>
    cases hx : rest.contains 'x' <;> simp [hr, hw, hx] <;> decide

theorem protOfChars_cons_x (rest : List Char) :
    protOfChars ('x' :: rest) = 4 ||| protOfChars rest := by
  simp only [protOfChars, List.contains_cons]
  cases hr : rest.contains 'r' <;> cases hw : rest.contains 'w' <;>
    cases hx : rest.contains 'x' <;> simp [hr, hw, hx] <;> decide

theorem protOfChars_cons_dash (rest : List Char) :
    protOfChars ('-' :: rest) = protOfChars rest := by
  simp only [protOfChars, List.contains_cons]
  cases hr : rest.contains 'r' <;> cases hw : rest.contains 'w' <;>
    cases hx : rest.contains 'x' <;> simp [hr, hw, hx]

/-- The protection-character loop ORs together the flags of the letters
occurring in the string, whenever all characters are in the alphabet. -/
theorem pageProtectionFold_ok (cs : List Char) (acc : Nat)
    (h : cs.all protAlphabet = true) :
    pageProtectionFold cs acc = .ok (acc ||| protOfChars cs) := by
  induction cs generalizing acc with
  | nil => simp [pageProtectionFold, protOfChars]
  | cons c rest ih =>
    simp only [List.all_cons, Bool.and_eq_true] at h
    obtain ⟨hc, hrest⟩ := h
    have hc' : c = 'r' ∨ c = 'w' ∨ c = 'x' ∨ c = '-' := by
      simpa [protAlphabet, or_assoc] using hc
    rcases hc' with h1 | h1 | h1 | h1 <;> subst h1
    · rw [show pageProtectionFold ('r' :: rest) acc =
          pageProtectionFold rest (acc ||| GUM_PAGE_READ) from rfl,
        ih _ hrest, protOfChars_cons_r, GUM_PAGE_READ, Nat.or_assoc]
    · rw [show pageProtectionFold ('w' :: rest) acc =
          pageProtectionFold rest (acc ||| GUM_PAGE_WRITE) from rfl,
        ih _ hrest, protOfChars_cons_w, GUM_PAGE_WRITE, Nat.or_assoc]
    · rw [show pageProtectionFold ('x' :: rest) acc =
          pageProtectionFold rest (acc ||| GUM_PAGE_EXECUTE) from rfl,
        ih _ hrest, protOfChars_cons_x, GUM_PAGE_EXECUTE, Nat.or_assoc]
    · rw [show pageProtectionFold ('-' :: rest) acc =
          pageProtectionFold rest acc from rfl, ih _ hrest, protOfChars_cons_dash]

/-- The protection-character loop fails exactly on the first character
outside the alphabet. -/
theorem pageProtectionFold_fail (cs : List Char) (acc : Nat)
    (h : cs.all protAlphabet = false) :
    pageProtectionFold cs acc = .fail .invalidProtectionChar := by
  induction cs generalizing acc with
  | nil => simp at h
  | cons c rest ih =>
    simp only [List.all_cons, Bool.and_eq_false_iff] at h
    by_cases hc : protAlphabet c = true
    · have hc' : c = 'r' ∨ c = 'w' ∨ c = 'x' ∨ c = '-' := by
        simpa [protAlphabet, or_assoc] using hc
      have hrest : rest.all protAlphabet = false := by
        rcases h with h | h
        · rw [hc] at h; cases h
        · exact h
      rcases hc' with h1 | h1 | h1 | h1 <;> subst h1 <;>
        simpa [pageProtectionFold] using ih _ hrest
    · simp only [Bool.not_eq_true] at hc
      have hr : c ≠ 'r' ∧ c ≠ 'w' ∧ c ≠ 'x' ∧ c ≠ '-' := by
        by_contra hcon
        push_neg at hcon
        rcases Decidable.em (c = 'r') with h1 | h1
        · rw [h1] at hc; cases hc
        · rcases Decidable.em (c = 'w') with h2 | h2
          · rw [h2] at hc; cases hc
          · rcases Decidable.em (c = 'x') with h3 | h3
            · rw [h3] at hc; cases hc
            · have h4 := hcon h1 h2 h3
              rw [h4] at hc; cases hc
      simp [pageProtectionFold, hr.1, hr.2.1, hr.2.2.1, hr.2.2.2]

/-- C9 counterexample: the protection parser accepts strings that are not
3 characters wide in the fixed read/write/execute order (which the claim
says must be rejected): the reversed 2-character `"wr"`, the empty
string, and a 6-character string all succeed. -/
theorem gum_page_protection_get_noncanonical_accepted :
    page_protection_get (.vString "wr") = .ok 3 ∧
    page_protection_get (.vString "") = .ok 0 ∧
    page_protection_get (.vString "rwxrwx") = .ok 7 :=
  ⟨rfl, rfl, rfl⟩

/-- C9 (amended): construction always yields an exactly-3-character
string in fixed read/write/execute order, each position its letter or
`-`; parsing accepts precisely the strings over the alphabet
`{r, w, x, -}` — of any length and order, ORing the letter flags —
failing on any string with a character outside the alphabet and on
non-strings; on canonical 3-character strings the codec round-trips. -/
theorem gum_page_protection_codec :
    (∀ prot : Nat, ∃ c0 c1 c2 : Char,
      (page_protection_new prot).data = [c0, c1, c2] ∧
      (c0 = 'r' ∨ c0 = '-') ∧ (c1 = 'w' ∨ c1 = '-') ∧ (c2 = 'x' ∨ c2 = '-')) ∧
    (∀ s : String, s.data.all protAlphabet = true →
      page_protection_get (.vString s) = .ok (protOfChars s.data)) ∧
    (∀ s : String, s.data.all protAlphabet = false →
      page_protection_get (.vString s) = .fail .invalidProtectionChar) ∧
    (∀ v : V8Value, v.isString = false →
      page_protection_get v = .fail .expectedProtectionString) ∧
    (∀ prot : Nat, prot < 8 →
      page_protection_get (.vString (page_protection_new prot)) = .ok prot) := by
  refine ⟨fun prot => ?_, fun s h => ?_, fun s h => ?_, fun v h => ?_, by decide⟩
  · refine ⟨_, _, _, rfl, ?_, ?_, ?_⟩ <;> split <;> simp
  · have := pageProtectionFold_ok s.data GUM_PAGE_NO_ACCESS h
    simpa [page_protection_get, GUM_PAGE_NO_ACCESS] using this
  · have := pageProtectionFold_fail s.data GUM_PAGE_NO_ACCESS h
    simpa [page_protection_get] using this
  · cases v <;> simp_all [page_protection_get, V8Value.isString]

/-- Witness for C9 (amended) on the 2-character out-of-order string
`"xw"`. -/
theorem gum_page_protection_codec_witness :
    page_protection_get (.vString "xw") = .ok 6 := by
  have h := gum_page_protection_codec.2.1 "xw" (by decide)
  have he : protOfChars "xw".data = 6 := by decide
  rw [he] at h
  exact h

/-! ### C3 / C10 — fuzzy byte-buffer conversion of arrays -/

/-- The element loop succeeds whenever every element's `ToUint32`
coercion succeeds, storing the low byte of each coerced value. -/
theorem bytesFromArrayElems_all_some (elems : List V8Value)
    (h : ∀ v ∈ elems, (uint32Value v).isSome) :
    bytesFromArrayElems elems =
      some (elems.map (fun v => ((uint32Value v).getD 0) % 256)) := by
  induction elems with
  | nil => rfl
  | cons v rest ih =>
    obtain ⟨e, he⟩ := Option.isSome_iff_exists.mp (h v (by simp))
    have hrest := ih (fun w hw => h w (by simp [hw]))
    simp [bytesFromArrayElems, he, hrest]

/-- The element loop fails whenever some element's `ToUint32` coercion
fails. -/
theorem bytesFromArrayElems_exists_none (elems : List V8Value)
    (h : ∃ v ∈ elems, uint32Value v = none) :
    bytesFromArrayElems elems = none := by
  induction elems with
  | nil => simp at h
  | cons v rest ih =>
    rcases h with ⟨w, hw, hnone⟩
    rcases List.mem_cons.mp hw with h1 | h1
    · subst h1
      simp [bytesFromArrayElems, hnone]
    · cases huv : uint32Value v
      · simp [bytesFromArrayElems, huv]
      · simp [bytesFromArrayElems, huv, ih ⟨w, h1, hnone⟩]

/-- C10: each array element is converted through the engine's
unsigned-32-bit coercion and truncated to its low 8 bits; every element
whose coercion succeeds — including numbers above 255 and negative
numbers — contributes its coerced value modulo 256 without failing, and
the conversion fails only when some element's coercion itself fails. -/
theorem gum_bytes_array_elements_truncated_mod_256 :
    ∀ elems : List V8Value, elems.length ≤ GUM_MAX_SEND_ARRAY_LENGTH →
      ((∀ v ∈ elems, (uint32Value v).isSome) →
        bytes_try_get (.vArray elems) =
          some (elems.map (fun v => ((uint32Value v).getD 0) % 256))) ∧
      ((∃ v ∈ elems, uint32Value v = none) →
        bytes_try_get (.vArray elems) = none) := by
  intro elems hlen
  have hcap : ¬ elems.length > GUM_MAX_SEND_ARRAY_LENGTH := Nat.not_lt.mpr hlen
  constructor
  · intro h
    simp [bytes_try_get, hcap, bytesFromArrayElems_all_some elems h]
  · intro h
    simp [bytes_try_get, hcap, bytesFromArrayElems_exists_none elems h]

/-- Witness for C10: 300 truncates to 44, -1 coerces to `2^32 - 1` and
truncates to 255, `true` coerces to 1. -/
theorem gum_bytes_array_elements_truncated_mod_256_witness :
    bytes_try_get (.vArray [.vNumber 300, .vNumber (-1), .vBool true]) =
      some [44, 255, 1] := by
  have h := (gum_bytes_array_elements_truncated_mod_256
      [.vNumber 300, .vNumber (-1), .vBool true] (by decide)).1 (by decide)
  exact h.trans (by rfl)

/-- C3 counterexample: the claim says an element outside `[0, 255]`, or a
non-numeric element, makes the whole conversion fail; in fact a numeric
array containing 256 converts successfully (to the truncated byte 0), as
does one containing a non-numeric string (NaN coerces to 0). -/
theorem gum_bytes_out_of_range_element_accepted :
    bytes_try_get (.vArray [.vNumber 256]) = some [0] ∧
    bytes_get (.vArray [.vNumber 256]) = .ok [0] ∧
    bytes_try_get (.vArray [.vString "foo"]) = some [0] :=
  ⟨rfl, rfl, rfl⟩

/-- A numeric array of exactly the cap length converts successfully. -/
theorem bytesReplicateAtCap :
    bytes_try_get (.vArray (List.replicate 1048576 (.vNumber 0))) =
      some (List.replicate 1048576 0) := by
  have hcap : ¬ (List.replicate 1048576 (V8Value.vNumber 0)).length >
      GUM_MAX_SEND_ARRAY_LENGTH := by
    rw [List.length_replicate]
    decide
  have hall : ∀ v ∈ List.replicate 1048576 (V8Value.vNumber 0),
      (uint32Value v).isSome := by
    intro v hv
    rw [List.eq_of_mem_replicate hv]
    rfl
  have hunf : bytes_try_get (.vArray (List.replicate 1048576 (.vNumber 0))) =
      if (List.replicate 1048576 (V8Value.vNumber 0)).length >
          GUM_MAX_SEND_ARRAY_LENGTH then none
      else bytesFromArrayElems (List.replicate 1048576 (.vNumber 0)) := rfl
  rw [hunf, if_neg hcap, bytesFromArrayElems_all_some _ hall, List.map_replicate]
  have hzero : ((uint32Value (V8Value.vNumber 0)).getD 0) % 256 = 0 := rfl
  rw [hzero]

theorem bytesReplicateOverCap :
    bytes_try_get (.vArray (List.replicate 1048577 (.vNumber 0))) = none := by
  have hover : (List.replicate 1048577 (V8Value.vNumber 0)).length >
      GUM_MAX_SEND_ARRAY_LENGTH := by
    rw [List.length_replicate]
    decide
  have hunf : bytes_try_get (.vArray (List.replicate 1048577 (.vNumber 0))) =
      if (List.replicate 1048577 (V8Value.vNumber 0)).length >
          GUM_MAX_SEND_ARRAY_LENGTH then none
      else bytesFromArrayElems (List.replicate 1048577 (.vNumber 0)) := rfl
  rw [hunf]
  rw [if_pos hover]

theorem bytes_get_of_try_none (v : V8Value) (h : bytes_try_get v = none) :
    bytes_get v = .fail .unsupportedDataValue := by
  unfold bytes_get
  rw [h]

theorem bytesReplicateOverCapGet :
    bytes_get (.vArray (List.replicate 1048577 (.vNumber 0))) =
      .fail .unsupportedDataValue :=
  bytes_get_of_try_none _ bytesReplicateOverCap

theorem bytesWithinCapNoneIff :
    ∀ elems : List V8Value, elems.length ≤ GUM_MAX_SEND_ARRAY_LENGTH →
      (bytes_try_get (.vArray elems) = none ↔ ∃ v ∈ elems, uint32Value v = none) := by
  intro elems hlen
  have hcap' : ¬ elems.length > GUM_MAX_SEND_ARRAY_LENGTH := Nat.not_lt.mpr hlen
  constructor
  · intro hnone
    by_contra hex
    push_neg at hex
    have hall : ∀ v ∈ elems, (uint32Value v).isSome := fun v hv =>
      Option.ne_none_iff_isSome.mp (hex v hv)
    rw [show bytes_try_get (.vArray elems) = bytesFromArrayElems elems from by
        simp [bytes_try_get, hcap'],
      bytesFromArrayElems_all_some elems hall] at hnone
    cases hnone
  · intro hex
    simp [bytes_try_get, hcap', bytesFromArrayElems_exists_none elems hex]

/-- C3 (amended): a numeric array of length 1,048,576 succeeds; length
1,048,577 fails, surfacing as `UnsupportedDataValue`; within the cap the
conversion fails exactly when some element's unsigned-32-bit coercion
fails (elements whose coercion succeeds, even outside `[0, 255]`, are
truncated modulo 256), and no partial buffer is returned on failure. -/
theorem gum_bytes_fuzzy_length_cap :
    bytes_try_get (.vArray (List.replicate 1048576 (.vNumber 0))) =
      some (List.replicate 1048576 0) ∧
    bytes_try_get (.vArray (List.replicate 1048577 (.vNumber 0))) = none ∧
    bytes_get (.vArray (List.replicate 1048577 (.vNumber 0))) =
      .fail .unsupportedDataValue ∧
    (∀ elems : List V8Value, elems.length ≤ GUM_MAX_SEND_ARRAY_LENGTH →
      (bytes_try_get (.vArray elems) = none ↔ ∃ v ∈ elems, uint32Value v = none)) :=
  ⟨bytesReplicateAtCap, bytesReplicateOverCap, bytesReplicateOverCapGet,
   bytesWithinCapNoneIff⟩

/-- Witness for C3 (amended): a within-cap array with a BigInt element
(whose `ToNumber` coercion throws) converts to nothing. -/
theorem gum_bytes_fuzzy_length_cap_witness :
    bytes_try_get (.vArray [.vNumber 1, .vBigInt 2]) = none := by
  exact (gum_bytes_fuzzy_length_cap.2.2.2 [.vNumber 1, .vBigInt 2] (by decide)).mpr
    ⟨.vBigInt 2, by simp, rfl⟩

/-! ### C5 — native resource registry -/

/-- C5: registering a native resource immediately raises the runtime's
external-memory accounting by `size` and adds the record to the tracking
set; the finalization notification for the handle then, exactly once,
lowers the accounting by `size`, invokes the destructor callback (when
present) on the registered address, and removes the record from the
tracking set — a second notification for the same record is a no-op, so
the record is never freed twice. -/
theorem gum_native_resource_lifecycle :
    ∀ (w : ResourceWorld) (addr size : Nat) (hasNotify : Bool),
      w.WF →
      ∀ id w₁, native_resource_new w addr size hasNotify = (id, w₁) →
        w₁.externalMem = w.externalMem + size ∧
        id ∈ w₁.nativeResources ∧
        (∀ w₂, native_resource_on_weak_notify w₁ id = w₂ →
          w₂.externalMem = w.externalMem ∧
          id ∉ w₂.nativeResources ∧
          w₂.notifyLog = w.notifyLog ++ (if hasNotify then [addr] else []) ∧
          w₂.freedLog.count id = 1 ∧
          native_resource_on_weak_notify w₂ id = w₂) := by
  intro w addr size hasNotify hwf id w₁ hnew
  obtain ⟨hwf1, hwf2, hwf3, hwf4⟩ := hwf
  rw [native_resource_new, Prod.mk.injEq] at hnew
  obtain ⟨hid, hw₁⟩ := hnew
  subst hid
  subst hw₁
  refine ⟨rfl, by simp, fun w₂ hnot => ?_⟩
  have hmemself : w.nextId ∉ w.nativeResources := fun hmem =>
    Nat.lt_irrefl _ (hwf1 _ hmem)
  have hfreed0 : w.freedLog.count w.nextId = 0 :=
    List.count_eq_zero_of_not_mem (fun hmem => Nat.lt_irrefl _ (hwf3 _ hmem))
  rw [native_resource_on_weak_notify, g_hash_table_remove_resource] at hnot
  simp only [List.mem_cons, true_or, if_pos] at hnot
  rw [List.erase_cons_head] at hnot
  rw [native_resource_free] at hnot
  simp only [List.lookup_cons_self] at hnot
  subst hnot
  refine ⟨by simp, hmemself, rfl, ?_, ?_⟩
  · simp [hfreed0]
  · rw [native_resource_on_weak_notify, g_hash_table_remove_resource]
    simp [hmemself]

/-- Witness for C5 at a concrete registration `(address 0x1000, size
128)` in the empty world. -/
theorem gum_native_resource_lifecycle_witness :
    (native_resource_on_weak_notify
      ⟨128, [0], [(0, ⟨4096, 128, true⟩)], 1, [], []⟩ 0).externalMem = 0 ∧
    (native_resource_on_weak_notify
      ⟨128, [0], [(0, ⟨4096, 128, true⟩)], 1, [], []⟩ 0).nativeResources = [] ∧
    (native_resource_on_weak_notify
      ⟨128, [0], [(0, ⟨4096, 128, true⟩)], 1, [], []⟩ 0).notifyLog = [4096] ∧
    (native_resource_on_weak_notify
      ⟨128, [0], [(0, ⟨4096, 128, true⟩)], 1, [], []⟩ 0).freedLog.count 0 = 1 := by
  have h := gum_native_resource_lifecycle ResourceWorld.empty 4096 128 true
    (by refine ⟨?_, ?_, ?_, ?_⟩ <;> simp [ResourceWorld.empty, ResourceWorld.WF])
    0 ⟨128, [0], [(0, ⟨4096, 128, true⟩)], 1, [], []⟩ rfl
  have h2 := h.2.2 _ rfl
  exact ⟨by simpa [ResourceWorld.empty] using h2.1, rfl,
    by simpa [ResourceWorld.empty] using h2.2.2.1, h2.2.2.2.1⟩

/-! ### C8 — CPU-context snapshot lifecycle -/

/-- C8: scheduling deferred release deep-copies the aliased register
structure into owned storage, re-points the handle at the copy and marks
it immutable: any later mutation of the originally aliased structure
leaves every register read through the handle at the snapshot-time value;
the weak notification then frees the owned copy exactly once (and the
wrapper itself). -/
theorem gum_cpu_context_free_later_snapshot :
    ∀ (a : CpuArena) (h : CpuHandle) (orig : GumCpuContext),
      readCpuContext a h = some orig →
      (∀ id ∈ a.freedCtxLog, id < a.slots.length) →
      ∀ a₁ h' wr, cpu_context_free_later a h = some (a₁, h', wr) →
        h'.isMutable = false ∧
        h'.ptrField ≠ h.ptrField ∧
        readCpuContext a₁ h' = some orig ∧
        (∀ newCtx,
          readCpuContext (mutateNativeContext a₁ h.ptrField newCtx) h' = some orig) ∧
        (∀ newCtx,
          ((cpu_context_on_weak_notify (mutateNativeContext a₁ h.ptrField newCtx)
              wr).1).freedCtxLog.count wr.cpu_context = 1 ∧
          ((cpu_context_on_weak_notify (mutateNativeContext a₁ h.ptrField newCtx)
              wr).2).wrapperFreed = true) := by
  intro a h orig hread hlog a₁ h' wr hfl
  have hslot : a.slots[h.ptrField]? = some (some orig) := by
    rw [readCpuContext] at hread
    cases hs : a.slots[h.ptrField]? with
    | none => rw [hs] at hread; cases hread
    | some o =>
        rw [hs] at hread
        simp only [Option.getD_some] at hread
        rw [hread]
  have hlt : h.ptrField < a.slots.length := by
    have := List.getElem?_eq_some.mp hslot
    exact this.1
  rw [cpu_context_free_later, hread] at hfl
  simp only [Option.some.injEq, Prod.mk.injEq] at hfl
  obtain ⟨ha₁, hh', hwr⟩ := hfl
  subst ha₁
  subst hh'
  subst hwr
  have hne : a.slots.length ≠ h.ptrField := fun hc => absurd (hc ▸ hlt) (Nat.lt_irrefl _)
  refine ⟨rfl, hne, ?_, fun newCtx => ?_, fun newCtx => ?_⟩
  · rw [readCpuContext]
    simp [List.getElem?_concat_length]
  · rw [readCpuContext, mutateNativeContext]
    simp only
    rw [List.getElem?_set_ne (fun hc => hne hc.symm)]
    simp [List.getElem?_concat_length]
  · constructor
    · simp only [cpu_context_on_weak_notify, mutateNativeContext]
      rw [List.count_append]
      have h0 : a.freedCtxLog.count (a.slots.length) = 0 :=
        List.count_eq_zero_of_not_mem
          (fun hmem => Nat.lt_irrefl _ (hlog _ hmem))
      simp [h0]
    · rfl

/-! ### C2 — press on a required tag with a missing argument

The lemmas below check, conversion by conversion, that the
"missing argument" error can only originate from the argument-presence
check at the head of the parse loop, never from a value conversion. -/

theorem int_get_ne_missing (v : V8Value) :
    int_get v ≠ .fail .missingArgument := by
  cases v <;> simp only [int_get] <;> first | (split_ifs <;> simp) | simp

theorem uint_get_ne_missing (v : V8Value) :
    uint_get v ≠ .fail .missingArgument := by
  cases v <;> simp only [uint_get] <;> first | (split_ifs <;> simp) | simp

theorem int64_get_ne_missing (v : V8Value) :
    int64_get v ≠ .fail .missingArgument := by
  cases v <;> simp only [int64_get] <;> first | (split_ifs <;> simp) | simp

theorem uint64_get_ne_missing (v : V8Value) :
    uint64_get v ≠ .fail .missingArgument := by
  cases v <;> simp only [uint64_get] <;> first | (split_ifs <;> simp) | simp

theorem int64_parse_ne_missing (v : V8Value) :
    int64_parse v ≠ .fail .missingArgument := by
  cases v <;> simp only [int64_parse] <;> try exact int64_get_ne_missing _
  split_ifs <;> simp

theorem uint64_parse_ne_missing (v : V8Value) :
    uint64_parse v ≠ .fail .missingArgument := by
  cases v <;> simp only [uint64_parse] <;> try exact uint64_get_ne_missing _
  split_ifs <;> simp

theorem size_get_ne_missing (v : V8Value) :
    size_get v ≠ .fail .missingArgument := by
  cases v <;> simp only [size_get] <;> first | (split_ifs <;> simp) | simp

theorem ssize_get_ne_missing (v : V8Value) :
    ssize_get v ≠ .fail .missingArgument := by
  cases v <;> simp only [ssize_get] <;> first | (split_ifs <;> simp) | simp

theorem native_pointer_get_ne_missing (v : V8Value) :
    native_pointer_get v ≠ .fail .missingArgument := by
  cases v <;> simp only [native_pointer_get] <;>
    first
      | (simp [V8Value.getProp]; done)
      | (rename_i props
         cases hx : V8Value.getProp (.vObject props) "handle" with
         | none => simp [hx]
         | some w => cases w <;> simp [hx])

theorem native_pointer_parse_ne_missing (v : V8Value) :
    native_pointer_parse v ≠ .fail .missingArgument := by
  cases v <;> simp only [native_pointer_parse] <;>
    first
      | (split_ifs <;> simp)
      | (simp; done)
      | exact native_pointer_get_ne_missing _

theorem memory_range_get_ne_missing (v : V8Value) :
    memory_range_get v ≠ .fail .missingArgument := by
  rw [memory_range_get]
  split
  · simp
  · cases hb : native_pointer_get ((v.getProp "base").getD .vUndefined) with
    | ok base =>
        simp only [hb]
        cases hsz : (v.getProp "size").getD .vUndefined <;> simp [hsz]
    | fail e =>
        simp only [hb]
        intro hc
        cases hc
        exact native_pointer_get_ne_missing _ hb
    | bad => simp [hb]

theorem memoryRangesFromElems_ne_missing (elems : List V8Value) :
    memoryRangesFromElems elems ≠ .fail .missingArgument := by
  induction elems with
  | nil => simp [memoryRangesFromElems]
  | cons v rest ih =>
    rw [memoryRangesFromElems]
    cases hv : memory_range_get v with
    | ok r =>
        cases hr : memoryRangesFromElems rest with
        | ok rs => simp
        | fail e =>
            simp only
            intro hc
            cases hc
            exact ih hr
        | bad => simp
    | fail e =>
        simp only
        intro hc
        cases hc
        exact memory_range_get_ne_missing v hv
    | bad => simp

theorem memory_ranges_get_ne_missing (v : V8Value) :
    memory_ranges_get v ≠ .fail .missingArgument := by
  rw [memory_ranges_get.eq_def]
  split
  · exact memoryRangesFromElems_ne_missing _
  · split
    · split
      · simp
      · rename_i e heq
        intro hc
        cases hc
        exact memory_range_get_ne_missing _ heq
      · simp
    · simp

theorem pageProtectionFold_ne_missing (cs : List Char) (acc : Nat) :
    pageProtectionFold cs acc ≠ .fail .missingArgument := by
  induction cs generalizing acc with
  | nil => simp [pageProtectionFold]
  | cons c rest ih =>
    rw [pageProtectionFold]
    split_ifs <;> first | exact ih _ | simp

theorem page_protection_get_ne_missing (v : V8Value) :
    page_protection_get v ≠ .fail .missingArgument := by
  cases v <;> simp only [page_protection_get] <;>
    first | (simp; done) | exact pageProtectionFold_ne_missing _ _

theorem bytes_get_ne_missing (v : V8Value) :
    bytes_get v ≠ .fail .missingArgument := by
  rw [bytes_get]
  cases h : bytes_try_get v <;> simp

theorem bytes_parse_ne_missing (v : V8Value) :
    bytes_parse v ≠ .fail .missingArgument := by
  cases v <;> simp only [bytes_parse] <;>
    first | (simp; done) | exact bytes_get_ne_missing _

theorem cpu_context_get_ne_missing (v : V8Value) :
    cpu_context_get v ≠ .fail .missingArgument := by
  cases v <;> simp [cpu_context_get]

theorem callbackSlots_ne_missing (value : V8Value) (ap opt : Bool) :
    callbackSlots value ap opt ≠ .fail .missingArgument := by
  cases value <;> simp only [callbackSlots] <;> first | (split_ifs <;> simp) | simp

theorem parseCallbacks_ne_missing (arg : V8Value) (ap : Bool) (fuel : Nat)
    (t : List Char) (acc : List OutVal) :
    parseCallbacks arg ap fuel t acc ≠ .fail .missingArgument := by
  induction fuel generalizing t acc with
  | zero => simp [parseCallbacks]
  | succ fuel ih =>
    intro hcon
    rw [parseCallbacks] at hcon
    split at hcon
    · cases hcon
    · dsimp only at hcon
      split at hcon
      · cases hcon
      · split at hcon
        · cases hcon
        · split at hcon
          · cases hcon
          · split at hcon
            · rename_i e heq
              cases hcon
              exact callbackSlots_ne_missing _ _ _ heq
            · cases hcon
            · split at hcon
              · cases hcon
              · exact ih _ _ hcon

theorem resHandle_ne_missing {α : Type} (r : Res α) (k : α → StepOut)
    (hr : r ≠ .fail .missingArgument)
    (hk : ∀ a, k a ≠ .fail .missingArgument) :
    resHandle r k ≠ .fail .missingArgument := by
  cases r with
  | ok a => exact hk a
  | fail e =>
      intro hc
      rw [show resHandle (Res.fail e) k = .fail e from rfl] at hc
      cases hc
      exact hr rfl
  | bad => simp [resHandle]

theorem tag_int_ne_missing (t : List Char) (arg : V8Value) :
    tag_int t arg ≠ .fail .missingArgument := by
  intro hcon
  unfold tag_int resHandle at hcon
  split at hcon
  · cases hcon
  · rename_i e heq
    cases hcon
    exact int_get_ne_missing arg heq
  · cases hcon

theorem tag_uint_ne_missing (t : List Char) (arg : V8Value) :
    tag_uint t arg ≠ .fail .missingArgument := by
  intro hcon
  unfold tag_uint resHandle at hcon
  split at hcon
  · cases hcon
  · rename_i e heq
    cases hcon
    exact uint_get_ne_missing arg heq
  · cases hcon

theorem tag_ssize_ne_missing (t : List Char) (arg : V8Value) :
    tag_ssize t arg ≠ .fail .missingArgument := by
  intro hcon
  unfold tag_ssize resHandle at hcon
  split at hcon
  · cases hcon
  · rename_i e heq
    cases hcon
    exact ssize_get_ne_missing arg heq
  · cases hcon

theorem tag_size_ne_missing (t : List Char) (arg : V8Value) :
    tag_size t arg ≠ .fail .missingArgument := by
  intro hcon
  unfold tag_size resHandle at hcon
  split at hcon
  · cases hcon
  · rename_i e heq
    cases hcon
    exact size_get_ne_missing arg heq
  · cases hcon

theorem tag_range_ne_missing (t : List Char) (arg : V8Value) :
    tag_range t arg ≠ .fail .missingArgument := by
  intro hcon
  unfold tag_range resHandle at hcon
  split at hcon
  · cases hcon
  · rename_i e heq
    cases hcon
    exact memory_range_get_ne_missing arg heq
  · cases hcon

theorem tag_ranges_ne_missing (t : List Char) (arg : V8Value) :
    tag_ranges t arg ≠ .fail .missingArgument := by
  intro hcon
  unfold tag_ranges resHandle at hcon
  split at hcon
  · cases hcon
  · rename_i e heq
    cases hcon
    exact memory_ranges_get_ne_missing arg heq
  · cases hcon

theorem tag_protection_ne_missing (t : List Char) (arg : V8Value) :
    tag_protection t arg ≠ .fail .missingArgument := by
  intro hcon
  unfold tag_protection resHandle at hcon
  split at hcon
  · cases hcon
  · rename_i e heq
    cases hcon
    exact page_protection_get_ne_missing arg heq
  · cases hcon

theorem tag_int64_ne_missing (t : List Char) (arg : V8Value) :
    tag_int64 t arg ≠ .fail .missingArgument := by
  intro hcon
  unfold tag_int64 at hcon
  dsimp only at hcon
  unfold resHandle at hcon
  split at hcon
  · cases hcon
  · rename_i e heq
    cases hcon
    split at heq
    · exact int64_parse_ne_missing arg heq
    · exact int64_get_ne_missing arg heq
  · cases hcon

theorem tag_uint64_ne_missing (t : List Char) (arg : V8Value) :
    tag_uint64 t arg ≠ .fail .missingArgument := by
  intro hcon
  unfold tag_uint64 at hcon
  dsimp only at hcon
  unfold resHandle at hcon
  split at hcon
  · cases hcon
  · rename_i e heq
    cases hcon
    split at heq
    · exact uint64_parse_ne_missing arg heq
    · exact uint64_get_ne_missing arg heq
  · cases hcon

theorem tag_pointer_ne_missing (t : List Char) (arg : V8Value) :
    tag_pointer t arg ≠ .fail .missingArgument := by
  intro hcon
  unfold tag_pointer at hcon
  dsimp only at hcon
  unfold resHandle at hcon
  split at hcon
  · cases hcon
  · rename_i e heq
    cases hcon
    split at heq
    · exact native_pointer_parse_ne_missing arg heq
    · exact native_pointer_get_ne_missing arg heq
  · cases hcon

theorem tag_number_ne_missing (t : List Char) (arg : V8Value) :
    tag_number t arg ≠ .fail .missingArgument := by
  intro hcon
  unfold tag_number at hcon
  cases arg <;> cases hcon

theorem tag_boolean_ne_missing (t : List Char) (arg : V8Value) :
    tag_boolean t arg ≠ .fail .missingArgument := by
  intro hcon
  unfold tag_boolean at hcon
  cases arg <;> cases hcon

theorem tag_external_ne_missing (t : List Char) (arg : V8Value) :
    tag_external t arg ≠ .fail .missingArgument := by
  intro hcon
  unfold tag_external at hcon
  cases arg <;> cases hcon

theorem tag_std_string_ne_missing (t : List Char) (arg : V8Value) :
    tag_std_string t arg ≠ .fail .missingArgument := by
  intro hcon
  unfold tag_std_string at hcon
  cases arg <;> cases hcon

theorem tag_string_ne_missing (t : List Char) (arg : V8Value) :
    tag_string t arg ≠ .fail .missingArgument := by
  intro hcon
  simp only [tag_string, resHandle] at hcon
  repeat' split at hcon
  all_goals try cases hcon

theorem tag_value_ne_missing (t : List Char) (arg : V8Value) :
    tag_value t arg ≠ .fail .missingArgument := by
  intro hcon
  cases hcon

theorem tag_object_ne_missing (t : List Char) (arg : V8Value) :
    tag_object t arg ≠ .fail .missingArgument := by
  intro hcon
  simp only [tag_object, resHandle] at hcon
  repeat' split at hcon
  all_goals try cases hcon

theorem tag_array_ne_missing (t : List Char) (arg : V8Value) :
    tag_array t arg ≠ .fail .missingArgument := by
  intro hcon
  simp only [tag_array, resHandle] at hcon
  repeat' split at hcon
  all_goals try cases hcon

theorem tag_function_ne_missing (t : List Char) (arg : V8Value) :
    tag_function t arg ≠ .fail .missingArgument := by
  intro hcon
  simp only [tag_function] at hcon
  repeat' split at hcon
  all_goals first | cases hcon | exact parseCallbacks_ne_missing _ _ _ _ _ hcon

theorem tag_bytes_ne_missing (t : List Char) (arg : V8Value) :
    tag_bytes t arg ≠ .fail .missingArgument := by
  intro hcon
  simp only [tag_bytes, resHandle] at hcon
  repeat' split at hcon
  all_goals try cases hcon
  all_goals first
    | exact bytes_parse_ne_missing arg (by assumption)
    | exact bytes_get_ne_missing arg (by assumption)

theorem tag_cpu_context_ne_missing (t : List Char) (arg : V8Value) :
    tag_cpu_context t arg ≠ .fail .missingArgument := by
  intro hcon
  simp only [tag_cpu_context, resHandle] at hcon
  repeat' split at hcon
  all_goals try cases hcon
  all_goals first
    | exact cpu_context_get_ne_missing arg (by assumption)

theorem tag_match_pattern_ne_missing (t : List Char) (arg : V8Value) :
    tag_match_pattern t arg ≠ .fail .missingArgument := by
  intro hcon
  simp only [tag_match_pattern, resHandle] at hcon
  repeat' split at hcon
  all_goals try cases hcon

/-- Only the argument-presence check can produce the missing-argument
error: no tag case does. -/
theorem stepTag_ne_missing (c : Char) (t : List Char) (arg : V8Value) :
    stepTag c t arg ≠ .fail .missingArgument := by
  intro hcon
  unfold stepTag at hcon
  by_cases hc0 : c = 'i'
  · rw [if_pos hc0] at hcon
    exact tag_int_ne_missing t arg hcon
  rw [if_neg hc0] at hcon
  by_cases hc1 : c = 'u'
  · rw [if_pos hc1] at hcon
    exact tag_uint_ne_missing t arg hcon
  rw [if_neg hc1] at hcon
  by_cases hc2 : c = 'q'
  · rw [if_pos hc2] at hcon
    exact tag_int64_ne_missing t arg hcon
  rw [if_neg hc2] at hcon
  by_cases hc3 : c = 'Q'
  · rw [if_pos hc3] at hcon
    exact tag_uint64_ne_missing t arg hcon
  rw [if_neg hc3] at hcon
  by_cases hc4 : c = 'z'
  · rw [if_pos hc4] at hcon
    exact tag_ssize_ne_missing t arg hcon
  rw [if_neg hc4] at hcon
  by_cases hc5 : c = 'Z'
  · rw [if_pos hc5] at hcon
    exact tag_size_ne_missing t arg hcon
  rw [if_neg hc5] at hcon
  by_cases hc6 : c = 'n'
  · rw [if_pos hc6] at hcon
    exact tag_number_ne_missing t arg hcon
  rw [if_neg hc6] at hcon
  by_cases hc7 : c = 't'
  · rw [if_pos hc7] at hcon
    exact tag_boolean_ne_missing t arg hcon
  rw [if_neg hc7] at hcon
  by_cases hc8 : c = 'p'
  · rw [if_pos hc8] at hcon
    exact tag_pointer_ne_missing t arg hcon
  rw [if_neg hc8] at hcon
  by_cases hc9 : c = 'X'
  · rw [if_pos hc9] at hcon
    exact tag_external_ne_missing t arg hcon
  rw [if_neg hc9] at hcon
  by_cases hc10 : c = 's'
  · rw [if_pos hc10] at hcon
    exact tag_string_ne_missing t arg hcon
  rw [if_neg hc10] at hcon
  by_cases hc11 : c = 'S'
  · rw [if_pos hc11] at hcon
    exact tag_std_string_ne_missing t arg hcon
  rw [if_neg hc11] at hcon
  by_cases hc12 : c = 'r'
  · rw [if_pos hc12] at hcon
    exact tag_range_ne_missing t arg hcon
  rw [if_neg hc12] at hcon
  by_cases hc13 : c = 'R'
  · rw [if_pos hc13] at hcon
    exact tag_ranges_ne_missing t arg hcon
  rw [if_neg hc13] at hcon
  by_cases hc14 : c = 'm'
  · rw [if_pos hc14] at hcon
    exact tag_protection_ne_missing t arg hcon
  rw [if_neg hc14] at hcon
  by_cases hc15 : c = 'V'
  · rw [if_pos hc15] at hcon
    exact tag_value_ne_missing t arg hcon
  rw [if_neg hc15] at hcon
  by_cases hc16 : c = 'O'
  · rw [if_pos hc16] at hcon
    exact tag_object_ne_missing t arg hcon
  rw [if_neg hc16] at hcon
  by_cases hc17 : c = 'A'
  · rw [if_pos hc17] at hcon
    exact tag_array_ne_missing t arg hcon
  rw [if_neg hc17] at hcon
  by_cases hc18 : c = 'F'
  · rw [if_pos hc18] at hcon
    exact tag_function_ne_missing t arg hcon
  rw [if_neg hc18] at hcon
  by_cases hc19 : c = 'B'
  · rw [if_pos hc19] at hcon
    exact tag_bytes_ne_missing t arg hcon
  rw [if_neg hc19] at hcon
  by_cases hc20 : c = 'C'
  · rw [if_pos hc20] at hcon
    exact tag_cpu_context_ne_missing t arg hcon
  rw [if_neg hc20] at hcon
  by_cases hc21 : c = 'M'
  · rw [if_pos hc21] at hcon
    exact tag_match_pattern_ne_missing t arg hcon
  rw [if_neg hc21] at hcon
  cases hcon

/-- C2 counterexample: the claim says a parse whose first required,
unsatisfied tag is at position N fails with MissingArgument with no
output slot written.  With format `"ii"` and one argument, the parse
does fail with MissingArgument but the slot of tag 0 has been written;
with format `"is"` and one argument, the first required unsatisfied tag
is at position 1, yet the parse fails at tag 0 with "expected an
integer", not MissingArgument. -/
theorem gum_args_parse_missing_argument_counterexample :
    args_parse "ii" [.vNumber 5] = .fail .missingArgument [.int 5] Scope.empty 0 ∧
    [OutVal.int 5].length = 1 ∧
    args_parse "is" [.vString "x"] = .fail .expectedInteger [] Scope.empty 0 :=
  ⟨rfl, rfl, rfl⟩

/-- C2 (amended): whenever the left-to-right scan reaches a required tag
whose engine argument is absent or is the explicit missing sentinel
`undefined`, the parse fails immediately with MissingArgument, with
exactly the output slots of the previously completed tags written (none
at or after the failing tag); a missing-argument failure never
originates from a tag conversion; in particular, when the very first
tag's argument is missing, the parse fails with MissingArgument and no
output slot has been written. -/
theorem gum_args_parse_missing_argument :
    (∀ (args : List V8Value) (fuel : Nat) (c : Char) (t : List Char) (idx : Nat)
        (s : Scope) (n : Nat) (outs : List OutVal),
      c ≠ '|' → argMissingAt args idx = true →
      parseLoop args (fuel + 1) (c :: t) idx true s n outs =
        .fail .missingArgument outs s n) ∧
    (∀ (c : Char) (t : List Char) (arg : V8Value),
      stepTag c t arg ≠ .fail .missingArgument) ∧
    (∀ (format : String) (args : List V8Value) (c : Char) (t : List Char),
      format.data = c :: t → c ≠ '|' → argMissingAt args 0 = true →
      args_parse format args = .fail .missingArgument [] Scope.empty 0) := by
  have hstep : ∀ (args : List V8Value) (fuel : Nat) (c : Char) (t : List Char)
      (idx : Nat) (s : Scope) (n : Nat) (outs : List OutVal),
      c ≠ '|' → argMissingAt args idx = true →
      parseLoop args (fuel + 1) (c :: t) idx true s n outs =
        .fail .missingArgument outs s n := by
    intro args fuel c t idx s n outs hc hmiss
    rw [argMissingAt] at hmiss
    simp only [parseLoop]
    rw [if_neg hc]
    cases hidx : args[idx]? with
    | none => simp [hidx]
    | some a =>
        rw [hidx] at hmiss
        simp only [] at hmiss
        simp [hidx, hmiss]
  refine ⟨hstep, stepTag_ne_missing, ?_⟩
  intro format args c t hformat hc hmiss
  rw [args_parse, hformat]
  have hlen : (c :: t).length = t.length + 1 := rfl
  rw [hlen, hstep args t.length c t 0 Scope.empty 0 [] hc hmiss]

/-- Witness for C2 (amended): a single required tag with an empty
argument list fails with MissingArgument and no slot written. -/
theorem gum_args_parse_missing_argument_witness :
    args_parse "p" [] = .fail .missingArgument [] Scope.empty 0 :=
  gum_args_parse_missing_argument.2.2 "p" [] 'p' [] rfl (by decide) rfl

/-! ### C7 — textual numeric forms recognized by the fuzzy parses -/

theorem gllSign_other (c : Char) (rest : List Char) (h1 : c ≠ '-') (h2 : c ≠ '+') :
    gllSign (c :: rest) = (false, 0) := by
  unfold gllSign
  split <;> simp_all

theorem gllPrefLen_other (base : Nat) (d : Char) (r : List Char) (h : d ≠ '0') :
    gllPrefLen base (d :: r) = 0 := by
  unfold gllPrefLen
  split <;> simp_all

theorem gllPrefLen_eq_zero_or_two (base : Nat) (s2 : List Char) :
    gllPrefLen base s2 = 0 ∨ gllPrefLen base s2 = 2 := by
  unfold gllPrefLen
  split
  · split
    · right; rfl
    · left; rfl
  · left; rfl

theorem isBaseDigit_zero (base : Nat) (hb : base = 10 ∨ base = 16) :
    isBaseDigit base '0' = true := by
  rcases hb with hb | hb <;> subst hb <;> decide

/-- Spec-side view agrees with the code's whitespace/sign consumption. -/
theorem afterWsAndSign_eq (s : List Char) :
    afterWsAndSign s =
      (s.dropWhile isAsciiSpaceC).drop (gllSign (s.dropWhile isAsciiSpaceC)).2 := by
  rw [afterWsAndSign]
  rcases hs1 : s.dropWhile isAsciiSpaceC with _ | ⟨c, rest⟩
  · rfl
  · by_cases hm : c = '-'
    · subst hm; rfl
    · by_cases hp : c = '+'
      · subst hp; rfl
      · rw [gllSign_other c rest hm hp]
        split <;> simp_all

/-- A conversion consumes nothing exactly when the subject sequence
offers no digit of the base (for the bases the code uses). -/
theorem gParseLongLong_consumed_zero_iff (s : List Char) (base : Nat)
    (hb : base = 10 ∨ base = 16) :
    ((gParseLongLong s base).consumed = 0) ↔ startsWithBaseDigit base s = false := by
  rw [startsWithBaseDigit, afterWsAndSign_eq, gParseLongLong]
  rcases hs1 : s.dropWhile isAsciiSpaceC with _ | ⟨c, rest⟩
  · simp
  · simp only
    rcases hs2 : (c :: rest).drop (gllSign (c :: rest)).2 with _ | ⟨d, s2'⟩
    · -- nothing after whitespace and sign: prefix 0, no digits
      have hpref : gllPrefLen base ([] : List Char) = 0 := rfl
      simp [hs2, hpref]
    · by_cases hd : isBaseDigit base d = true
      · -- a digit is offered: the conversion always consumes something
        simp only [hs2, hd]
        rcases gllPrefLen_eq_zero_or_two base (d :: s2') with hp | hp
        · rw [hp]
          have hdig : (d :: s2').takeWhile (isBaseDigit base) =
              d :: s2'.takeWhile (isBaseDigit base) := List.takeWhile_cons_of_pos hd
          simp [hdig]
        · rw [hp]
          split <;> simp
      · -- no digit offered: prefix cannot apply and the scan stops at once
        have hd' : isBaseDigit base d = false := by
          cases hdd : isBaseDigit base d
          · rfl
          · exact absurd hdd hd
        have hd0 : d ≠ '0' := fun hc => by
          rw [hc, isBaseDigit_zero base hb] at hd'
          cases hd'
        have hpref : gllPrefLen base (d :: s2') = 0 := gllPrefLen_other base d s2' hd0
        have hdig : (d :: s2').takeWhile (isBaseDigit base) = [] :=
          List.takeWhile_cons_of_neg (by simp [hd'])
        simp [hs2, hpref, hdig, hd']

/-- C7 counterexample: sign-prefixed numeric strings are recognized by
the fuzzy 64-bit parses — the claim says no sign prefix is recognized:
`"-5"` parses as a signed 64-bit value, and `"-1"` parses as an unsigned
64-bit value by wrapping modulo `2^64`. -/
theorem gum_numeric_text_sign_accepted :
    int64_parse (.vString "-5") = .ok (-5) ∧
    uint64_parse (.vString "-1") = .ok (2 ^ 64 - 1) ∧
    native_pointer_parse (.vString " 16") = .ok 16 :=
  ⟨rfl, rfl, rfl⟩

/-- C7 (amended): a string input is recognized by the fuzzy 64-bit and
pointer parses in exactly two literal forms — with a `0x` prefix (checked
case-sensitively at the very start) the rest is read as hexadecimal,
otherwise as decimal — where in both forms the underlying C-locale
conversion additionally skips leading whitespace and accepts one optional
`+`/`-` sign (negative text wrapping modulo `2^64` in the unsigned
parses), and accepts trailing garbage after at least one digit; a string
offering no digit to consume fails with the `InvalidNumericString`
error. -/
theorem gum_numeric_text_recognition :
    (∀ s : String,
      (∃ v, int64_parse (.vString s) = .ok v) ↔ recognizedNumericText s = true) ∧
    (∀ s : String,
      (∃ v, uint64_parse (.vString s) = .ok v) ↔ recognizedNumericText s = true) ∧
    (∀ s : String,
      (∃ v, native_pointer_parse (.vString s) = .ok v) ↔ recognizedNumericText s = true) ∧
    (∀ s : String, recognizedNumericText s = false →
      int64_parse (.vString s) = .fail .invalidHexadecimalString ∧
      uint64_parse (.vString s) = .fail .invalidHexadecimalString ∧
      native_pointer_parse (.vString s) =
        .fail (if s.data.take 2 = ['0', 'x'] then GumError.invalidHexadecimalString
               else GumError.invalidDecimalString)) ∧
    int64_parse (.vString "0x2a") = .ok 42 ∧
    int64_parse (.vString "+7") = .ok 7 ∧
    uint64_parse (.vString "0x0x") = .ok 0 := by
  have key : ∀ (cs : List Char) (base : Nat), base = 10 ∨ base = 16 →
      (((gParseLongLong cs base).consumed = 0) ↔ startsWithBaseDigit base cs = false) :=
    fun cs base hb => gParseLongLong_consumed_zero_iff cs base hb
  refine ⟨fun s => ?_, fun s => ?_, fun s => ?_, fun s hrec => ?_, rfl, rfl, rfl⟩
  · by_cases h0x : s.data.take 2 = ['0', 'x'] <;>
      by_cases hc : (gParseLongLong (if h : s.data.take 2 = ['0', 'x'] then s.data.drop 2
          else s.data) (if s.data.take 2 = ['0', 'x'] then 16 else 10)).consumed = 0 <;>
      simp_all [int64_parse, gAsciiStrtoll, recognizedNumericText,
        key (s.data.drop 2) 16 (Or.inr rfl), key s.data 10 (Or.inl rfl)]
  · by_cases h0x : s.data.take 2 = ['0', 'x'] <;>
      by_cases hc : (gParseLongLong (if h : s.data.take 2 = ['0', 'x'] then s.data.drop 2
          else s.data) (if s.data.take 2 = ['0', 'x'] then 16 else 10)).consumed = 0 <;>
      simp_all [uint64_parse, gAsciiStrtoull, recognizedNumericText,
        key (s.data.drop 2) 16 (Or.inr rfl), key s.data 10 (Or.inl rfl)]
  · by_cases h0x : s.data.take 2 = ['0', 'x'] <;>
      by_cases hc : (gParseLongLong (if h : s.data.take 2 = ['0', 'x'] then s.data.drop 2
          else s.data) (if s.data.take 2 = ['0', 'x'] then 16 else 10)).consumed = 0 <;>
      simp_all [native_pointer_parse, gAsciiStrtoull, recognizedNumericText,
        key (s.data.drop 2) 16 (Or.inr rfl), key s.data 10 (Or.inl rfl)]
  · by_cases h0x : s.data.take 2 = ['0', 'x'] <;>
      simp_all [int64_parse, uint64_parse, native_pointer_parse, gAsciiStrtoll,
        gAsciiStrtoull, recognizedNumericText,
        key (s.data.drop 2) 16 (Or.inr rfl), key s.data 10 (Or.inl rfl)]

/-- Witness for C7 (amended): a digit-less string fails all three fuzzy
parses with the invalid-numeric-string errors. -/
theorem gum_numeric_text_recognition_witness :
    int64_parse (.vString "zz") = .fail .invalidHexadecimalString ∧
    native_pointer_parse (.vString "zz") = .fail .invalidDecimalString := by
  have h := gum_numeric_text_recognition.2.2.2.1 "zz" (by decide)
  exact ⟨h.1, by simpa using h.2.2⟩

/-- Witness for C8 at a concrete one-slot arena whose native context is
overwritten after the snapshot. -/
theorem gum_cpu_context_free_later_snapshot_witness :
    readCpuContext
      (mutateNativeContext ⟨[some ⟨[7, 8]⟩, some ⟨[7, 8]⟩], []⟩ 0 (some ⟨[9, 9]⟩))
      ⟨1, false⟩ = some ⟨[7, 8]⟩ ∧
    ((cpu_context_on_weak_notify
        (mutateNativeContext ⟨[some ⟨[7, 8]⟩, some ⟨[7, 8]⟩], []⟩ 0 (some ⟨[9, 9]⟩))
        ⟨1, false⟩).1).freedCtxLog.count 1 = 1 := by
  have h := gum_cpu_context_free_later_snapshot ⟨[some ⟨[7, 8]⟩], []⟩ ⟨0, true⟩ ⟨[7, 8]⟩
    rfl (by simp) ⟨[some ⟨[7, 8]⟩, some ⟨[7, 8]⟩], []⟩ ⟨1, false⟩ ⟨1, false⟩ rfl
  exact ⟨h.2.2.2.1 (some ⟨[9, 9]⟩), (h.2.2.2.2 (some ⟨[9, 9]⟩)).1⟩

/-! ### C1 — transactional scope rollback -/

theorem stageOne_snd (s : Scope) (n : Nat) (k : AllocKind) :
    (stageOne s n k).2 = n + 1 := by
  cases k <;> rfl

theorem stageOne_committed (s : Scope) (n : Nat) (k : AllocKind) :
    (stageOne s n k).1.committed = s.committed := by
  cases k <;> rfl

/-- Staging one allocation puts the fresh id into exactly one
collection: the staged ids are a permutation of the fresh id consed onto
the previous ones. -/
theorem allStagedIds_stageOne_perm (s : Scope) (n : Nat) (k : AllocKind) :
    (allStagedIds (stageOne s n k).1).Perm (n :: allStagedIds s) := by
  cases k
  · simp [allStagedIds, stageOne]
  · simp only [allStagedIds, stageOne, List.cons_append, List.append_assoc]
    exact List.perm_middle
  · simp only [allStagedIds, stageOne, List.cons_append, List.append_assoc]
    exact (List.Perm.append_left _ List.perm_middle).trans List.perm_middle
  · simp only [allStagedIds, stageOne, List.cons_append, List.append_assoc]
    exact (List.Perm.append_left _
      ((List.Perm.append_left _ List.perm_middle).trans List.perm_middle)).trans
      List.perm_middle

theorem stageOne_scope_ok (s : Scope) (n : Nat) (k : AllocKind)
    (h : ScopeOK s n) : ScopeOK (stageOne s n k).1 (stageOne s n k).2 := by
  obtain ⟨hcom, hbound, hnodup⟩ := h
  have hperm := allStagedIds_stageOne_perm s n k
  rw [stageOne_snd]
  refine ⟨by rw [stageOne_committed]; exact hcom, ?_, ?_⟩
  · intro id hid
    rcases List.mem_cons.mp (hperm.mem_iff.mp hid) with h1 | h1
    · omega
    · exact Nat.lt_succ_of_lt (hbound id h1)
  · refine hperm.nodup_iff.mpr (List.nodup_cons.mpr ⟨?_, hnodup⟩)
    intro hmem
    exact Nat.lt_irrefl n (hbound n hmem)

theorem applyStages_scope_ok (ks : List AllocKind) :
    ∀ (s : Scope) (n : Nat), ScopeOK s n →
      ScopeOK (applyStages s n ks).1 (applyStages s n ks).2 := by
  induction ks with
  | nil => intro s n h; exact h
  | cons k ks ih =>
      intro s n h
      rw [applyStages]
      exact ih _ _ (stageOne_scope_ok s n k h)

/-- Every parse-loop outcome satisfies the scope invariant when the
input scope does: tags only ever stage fresh allocations. -/
theorem parseLoop_scope_inv (fuel : Nat) :
    ∀ (args : List V8Value) (fmt : List Char) (idx : Nat) (req : Bool)
      (s : Scope) (n : Nat) (outs : List OutVal), ScopeOK s n →
      ScopeOKResult (parseLoop args fuel fmt idx req s n outs) := by
  induction fuel with
  | zero =>
      intro args fmt idx req s n outs hok
      cases fmt with
      | nil => exact hok
      | cons c t => trivial
  | succ fuel ih =>
      intro args fmt idx req s n outs hok
      cases fmt with
      | nil => exact hok
      | cons c t =>
          simp only [parseLoop]
          by_cases hc : c = '|'
          · rw [if_pos hc]
            exact ih args t idx false s n outs hok
          · rw [if_neg hc]
            cases hidx : args[idx]? with
            | none =>
                cases req <;> simp <;> exact hok
            | some arg =>
                simp only
                cases hu : arg.isUndefined with
                | true => cases req <;> simp [hu] <;> exact hok
                | false =>
                    simp only [hu, Bool.false_eq_true, if_false]
                    cases hst : stepTag c t arg with
                    | fail e => exact hok
                    | bad => trivial
                    | next rest ws stages =>
                        simp only
                        rcases hap : applyStages s n stages with ⟨s', n'⟩
                        have hok' := applyStages_scope_ok stages s n hok
                        rw [hap] at hok'
                        exact ih args rest (idx + 1) req s' n' (outs ++ ws) hok'

theorem stagedAllocs_map_snd (s : Scope) :
    (stagedAllocs s).map Prod.snd = allStagedIds s := by
  simp [stagedAllocs, allStagedIds, List.map_map, Function.comp]

theorem stagedAllocs_nodup (s : Scope) (h : (allStagedIds s).Nodup) :
    (stagedAllocs s).Nodup := by
  rw [← stagedAllocs_map_snd s] at h
  exact h.of_map

/-- C1: when the argument parser fails, the scope is left uncommitted
and its destructor releases every allocation staged before the failure,
each exactly once, through its type-specific destructor; when the parser
succeeds, the scope is committed and the destructor releases nothing, so
no staged allocation is ever released twice. -/
theorem gum_args_parse_scope_rollback :
    ∀ (format : String) (args : List V8Value),
      (∀ e outs s n, args_parse format args = .fail e outs s n →
        s.committed = false ∧ scopeReleased s = stagedAllocs s ∧
        (scopeReleased s).Nodup) ∧
      (∀ outs s n, args_parse format args = .ok outs s n →
        s.committed = true ∧ scopeReleased s = []) := by
  intro format args
  have hempty : ScopeOK Scope.empty 0 := by
    refine ⟨rfl, ?_, ?_⟩ <;> simp [allStagedIds, Scope.empty]
  have hinv := parseLoop_scope_inv format.data.length args format.data 0 true
    Scope.empty 0 [] hempty
  constructor
  · intro e outs s n h
    rw [args_parse] at h
    cases hres : parseLoop args format.data.length format.data 0 true
        Scope.empty 0 [] with
    | ok o s' n' =>
        rw [hres] at h
        cases h
    | bad =>
        rw [hres] at h
        cases h
    | fail e' o' s' n' =>
        rw [hres] at h
        cases h
        rw [hres] at hinv
        obtain ⟨hcom, hbound, hnodup⟩ := hinv
        refine ⟨hcom, by simp [scopeReleased, hcom], ?_⟩
        simp only [scopeReleased, hcom, Bool.false_eq_true, if_false]
        exact stagedAllocs_nodup _ hnodup
  · intro outs s n h
    rw [args_parse] at h
    cases hres : parseLoop args format.data.length format.data 0 true
        Scope.empty 0 [] with
    | ok o s' n' =>
        rw [hres] at h
        cases h
        exact ⟨rfl, by simp [scopeReleased]⟩
    | bad =>
        rw [hres] at h
        cases h
    | fail e' o' s' n' =>
        rw [hres] at h
        cases h

/-- Witness for C1 at a failing parse that staged a duplicated string
and a match-pattern reference before the failure. -/
theorem gum_args_parse_scope_rollback_witness :
    args_parse "sMi" [.vString "a", .vString "bb", .vString "z"] =
      .fail .expectedInteger [.str (some "a"), .matchPatNew "bb"]
        ⟨false, [0], [], [], [1]⟩ 2 ∧
    scopeReleased ⟨false, [0], [], [], [1]⟩ =
      [(AllocKind.str, 0), (AllocKind.pat, 1)] ∧
    (scopeReleased ⟨false, [0], [], [], [1]⟩).Nodup := by
  have h := (gum_args_parse_scope_rollback "sMi"
      [.vString "a", .vString "bb", .vString "z"]).1 .expectedInteger
      [.str (some "a"), .matchPatNew "bb"] ⟨false, [0], [], [], [1]⟩ 2 rfl
  exact ⟨rfl, h.2.1.trans (by rfl), h.2.2⟩

end GumV8
